import Mathlib

/-!
# Certificate chain building and verification (`wrapper/src/pki/chain.cpp`)

A shallow embedding of `Chain::checkIssued`, `Chain::getIssued`,
`Chain::buildChain` and `Chain::verifyChain`, followed by theorems about them.

* A `Handle<Certificate>` that points at a certificate object is a value of an
  abstract type `Cert`; the null handle returned by `getIssued` (`return NULL`)
  is `none`.
* The methods of `Certificate` and the OpenSSL primitive `X509_check_issued`
  are not part of `chain.cpp`; they are the fields of `Env`.
* A C++ function that may throw returns `Except Exception _`.
* The `do { ... } while (...)` loop of `buildChain` has no bound in the source,
  so the embedding takes a number of iterations it may run (`fuel`); the result
  `none` means that the loop is still running after that many iterations.
* `verifyChain` works on OpenSSL objects: the embedding passes an `EngineState`
  (live contexts and stores, contexts validated so far) through the call, and
  takes what OpenSSL answers from an `Engine`.
-/

namespace TrustedCrypto

/-- Modelled from the spec: the exception object of `wrapper/common/common.h`
(absent from the sources at hand). Every fault is "annotated with the operation
name and a human-readable cause, and re-raised wrapped with added context":
an exception carries the code, class and message given to `THROW_EXCEPTION`,
and, when it wraps another exception, that exception as its cause. -/
inductive Exception where
  | root (code : Nat) (cls : String) (msg : String)
  | caused (code : Nat) (cls : String) (msg : String) (cause : Exception)
  deriving DecidableEq, Repr

/-- Modelled from the spec: the macro `THROW_EXCEPTION(code, class, cause, msg)`
of `wrapper/common/common.h` builds the exception that is thrown; a `NULL` cause
is `none`. -/
def THROW_EXCEPTION (code : Nat) (cls : String) (cause : Option Exception)
    (msg : String) : Exception :=
  match cause with
  | none => Exception.root code cls msg
  | some e => Exception.caused code cls msg e

/-- The innermost exception of a cause chain. -/
def Exception.rootCause : Exception → Exception
  | Exception.root code cls msg => Exception.root code cls msg
  | Exception.caused _ _ _ cause => cause.rootCause

/-- The capabilities `chain.cpp` consumes from its collaborators: the methods
`isEmpty`, `isSelfSigned` and `compare` of `Certificate`, and the OpenSSL
function `X509_check_issued` applied to the `internal()` handles of an issuer
and a subject. -/
structure Env (Cert : Type) where
  isEmpty : Cert → Bool
  isSelfSigned : Cert → Bool
  compare : Cert → Cert → Int
  X509_check_issued : Cert → Cert → Int

/-- The same collaborators with another issuance primitive. -/
def Env.withEngine {Cert : Type} (env : Env Cert) (f : Cert → Cert → Int) : Env Cert :=
  ⟨env.isEmpty, env.isSelfSigned, env.compare, f⟩

/-- OpenSSL's `X509_V_OK`. -/
def X509_V_OK : Int := 0

/-- The handler `catch (Handle<Exception> e) { THROW_EXCEPTION(0, Chain, e, msg); }`
that closes every function of `chain.cpp`. -/
def catchRethrow {α : Type} (msg : String) : Except Exception α → Except Exception α
  | Except.ok v => Except.ok v
  | Except.error e => Except.error (THROW_EXCEPTION 0 "Chain" (some e) msg)

/-- The `try` block of `Chain::checkIssued`. -/
def checkIssuedBody {Cert : Type} (env : Env Cert) (issuer cert : Cert) :
    Except Exception Bool :=
  if env.isEmpty issuer then
    Except.error (THROW_EXCEPTION 0 "Chain" none "Empty issuer cert")
  else if env.isEmpty cert then
    Except.error (THROW_EXCEPTION 0 "Chain" none "Empty sub cert")
  else if env.X509_check_issued issuer cert = X509_V_OK then
    Except.ok true
  else
    Except.ok false

/-- `Chain::checkIssued(issuer, cert)`. -/
def checkIssued {Cert : Type} (env : Env Cert) (issuer cert : Cert) :
    Except Exception Bool :=
  catchRethrow "checkIssued" (checkIssuedBody env issuer cert)

/-- The `for` loop of `Chain::getIssued` over the items of `certs` that are
still to be visited, followed by `return NULL`. -/
def getIssuedScan {Cert : Type} (env : Env Cert) (cert : Cert) :
    List Cert → Except Exception (Option Cert)
  | [] => Except.ok none
  | c :: rest =>
    match checkIssued env c cert with
    | Except.error e => Except.error e
    | Except.ok true => Except.ok (some c)
    | Except.ok false => getIssuedScan env cert rest

/-- `Chain::getIssued(certs, cert)`. -/
def getIssued {Cert : Type} (env : Env Cert) (certs : List Cert) (cert : Cert) :
    Except Exception (Option Cert) :=
  catchRethrow "Error get issued" (getIssuedScan env cert certs)

/-- The `do { ... } while (!issuer.isEmpty())` loop of `Chain::buildChain`, run
for at most `fuel` iterations from the state `(xtemp, chain)`. -/
def buildChainWalk {Cert : Type} (env : Env Cert) (certs : List Cert) :
    Nat → Cert → List Cert → Option (Except Exception (List Cert))
  | 0, _, _ => none
  | fuel + 1, xtemp, chain =>
    match getIssued env certs xtemp with
    | Except.error e => some (Except.error e)
    | Except.ok none =>
      some (Except.error (THROW_EXCEPTION 0 "Chain" none "Undefined issuer certificate"))
    | Except.ok (some issuer) =>
      if env.compare xtemp issuer = 0 then
        some (Except.ok chain)
      else
        buildChainWalk env certs fuel issuer (chain ++ [issuer])

/-- `Chain::buildChain(cert, certs)`, its loop run for at most `fuel`
iterations. -/
def buildChain {Cert : Type} (env : Env Cert) (fuel : Nat) (cert : Cert)
    (certs : List Cert) : Option (Except Exception (List Cert)) :=
  if env.isSelfSigned cert then
    some (Except.ok [cert])
  else
    (buildChainWalk env certs fuel cert [cert]).map
      (catchRethrow "Error build chain (certificate collection)")

/-- A run of the issuer walk: from `x`, each next certificate is the issuer
`getIssued` finds for the current one and does not compare equal to it. -/
def IsWalk {Cert : Type} (env : Env Cert) (certs : List Cert) : Cert → List Cert → Prop
  | _, [] => True
  | x, y :: rest =>
    getIssued env certs x = Except.ok (some y) ∧ env.compare x y ≠ 0 ∧
      IsWalk env certs y rest

/-- A small public-key infrastructure over certificates numbered by `Nat`:
`0` is the empty certificate, `1` a leaf issued by the intermediate `2`, which
is issued by the self-signed root `3`. -/
def pki3 : Env Nat :=
  ⟨fun c => c == 0, fun c => c == 3, fun a b => (a : Int) - (b : Int),
    fun i c => if i = c + 1 ∨ (i = 3 ∧ c = 3) then 0 else 29⟩

/-- Two cross-certified authorities: `1` and `2` are non-empty, neither is
self-signed, and each passes the engine's issuance check for the other. -/
def crossPki : Env Nat :=
  ⟨fun _ => false, fun _ => false, fun a b => (a : Int) - (b : Int),
    fun i c => if (i = 2 ∧ c = 1) ∨ (i = 1 ∧ c = 2) then 0 else 29⟩

/-- The certificate `d` is the first certificate of `pool` that satisfies
`checkIssued(., c)`: it does, and no certificate before it in `pool` does. -/
def FirstIssuer {Cert : Type} (env : Env Cert) (pool : List Cert) (c d : Cert) : Prop :=
  ∃ l1 l2, pool = l1 ++ d :: l2 ∧ checkIssued env d c = Except.ok true ∧
    ∀ p ∈ l1, checkIssued env p c ≠ Except.ok true

/-- A linear issuance path `c, path` in `pool`: the first pool issuer of each
certificate is the next one of the path, and the first pool issuer of the last
one is that certificate itself. -/
def IsIssuancePath {Cert : Type} (env : Env Cert) (pool : List Cert) :
    Cert → List Cert → Prop
  | c, [] => FirstIssuer env pool c c
  | c, d :: rest => FirstIssuer env pool c d ∧ IsIssuancePath env pool d rest

/-- The certificate `d` is the first certificate of `pool` that satisfies
`checkIssued(., c)`, and no empty certificate stands before it in `pool`. -/
def FirstIssuerReached {Cert : Type} (env : Env Cert) (pool : List Cert) (c d : Cert) : Prop :=
  ∃ l1 l2, pool = l1 ++ d :: l2 ∧ checkIssued env d c = Except.ok true ∧
    ∀ p ∈ l1, env.isEmpty p = false ∧ checkIssued env p c ≠ Except.ok true

/-- A linear issuance path `c, path` in `pool` whose issuers the search
reaches: the first pool issuer of each certificate is the next one of the
path, the first pool issuer of the last one compares equal to it, and no empty
certificate stands before any of these issuers in `pool`. -/
def IsReachedIssuancePath {Cert : Type} (env : Env Cert) (pool : List Cert) :
    Cert → List Cert → Prop
  | c, [] => ∃ y, FirstIssuerReached env pool c y ∧ env.compare c y = 0
  | c, d :: rest => FirstIssuerReached env pool c d ∧ IsReachedIssuancePath env pool d rest

/-- A leaf `1` issued by the self-signed root `3`, and a second self-signed
certificate `4` of the same authority: `3` and `4` pass the engine's issuance
check for each other and for themselves; all are non-empty. -/
def twoRootsPki : Env Nat :=
  ⟨fun _ => false, fun c => c == 3 || c == 4, fun a b => (a : Int) - (b : Int),
    fun i c => if (i = 3 ∧ c = 1) ∨ ((i = 3 ∨ i = 4) ∧ (c = 3 ∨ c = 4)) then 0 else 29⟩

/-- Modelled from the spec: the macro `THROW_OPENSSL_EXCEPTION(code, class, cause,
msg)` of `wrapper/common/common.h`, thrown when the engine "could not allocate
or initialize a trust store/validation context" (`EngineFailure`). It builds an
exception like `THROW_EXCEPTION`; what it reads from OpenSSL's error queue is
left out. -/
def THROW_OPENSSL_EXCEPTION (code : Nat) (cls : String) (cause : Option Exception)
    (msg : String) : Exception :=
  THROW_EXCEPTION code cls cause msg

/-- OpenSSL's `X509_V_FLAG_CRL_CHECK`. -/
def X509_V_FLAG_CRL_CHECK : Nat := 0x4

/-- OpenSSL's `X509_V_FLAG_CRL_CHECK_ALL`. -/
def X509_V_FLAG_CRL_CHECK_ALL : Nat := 0x8

/-- OpenSSL's `X509_V_FLAG_CHECK_SS_SIGNATURE`. -/
def X509_V_FLAG_CHECK_SS_SIGNATURE : Nat := 0x4000

/-- OpenSSL's `X509_V_FLAG_TRUSTED_FIRST`, which OpenSSL 1.1.0 and later leave
set on every context they initialise. -/
def X509_V_FLAG_TRUSTED_FIRST : Nat := 0x8000

/-- What `verifyChain` puts into an OpenSSL validation context: the trust store
it refers to, the target certificate, the candidate path, the CRL collection
attached by `X509_STORE_CTX_set0_crls` (if any), and the verification flags in
force: those `X509_STORE_CTX_init` left on the context and those set through
`X509_STORE_CTX_set_flags` since. -/
structure X509_STORE_CTX (Cert Crl : Type) where
  store : List Cert
  cert : Option Cert
  untrusted : List Cert
  crls : Option (List Crl)
  flags : Nat

/-- `X509_STORE_add_cert(st, x)`: the trust store with one more certificate. -/
def X509_STORE_add_cert {Cert : Type} (st : List Cert) (x : Cert) : List Cert :=
  st ++ [x]

/-- `X509_STORE_CTX_init(ctx, st, x, chain)`: a context over the store `st`, the
target `x` and the candidate path `chain`, without CRLs, and with the flags
`flags` that the engine's defaults put on a fresh context (none before OpenSSL
1.1.0, `X509_V_FLAG_TRUSTED_FIRST` since). -/
def X509_STORE_CTX_init {Cert Crl : Type} (flags : Nat) (st : List Cert) (x : Option Cert)
    (chain : List Cert) : X509_STORE_CTX Cert Crl :=
  ⟨st, x, chain, none, flags⟩

/-- `X509_STORE_CTX_set0_crls(ctx, crls)`. -/
def X509_STORE_CTX_set0_crls {Cert Crl : Type} (ctx : X509_STORE_CTX Cert Crl)
    (crls : List Crl) : X509_STORE_CTX Cert Crl :=
  ⟨ctx.store, ctx.cert, ctx.untrusted, some crls, ctx.flags⟩

/-- `X509_STORE_CTX_set_flags(ctx, flags)`: the flags are or-ed into those of the
context. -/
def X509_STORE_CTX_set_flags {Cert Crl : Type} (ctx : X509_STORE_CTX Cert Crl)
    (flags : Nat) : X509_STORE_CTX Cert Crl :=
  ⟨ctx.store, ctx.cert, ctx.untrusted, ctx.crls, ctx.flags ||| flags⟩

/-- The validation engine as `verifyChain` meets it in one call: whether
`X509_STORE_CTX_new` and `X509_STORE_new` return an object (`true`) or `NULL`
(`false`), the verification flags its defaults leave on a context after
`X509_STORE_CTX_init`, and the code `X509_verify_cert` returns for a context. -/
structure Engine (Cert Crl : Type) where
  X509_STORE_CTX_new : Bool
  X509_STORE_new : Bool
  defaultFlags : Nat
  X509_verify_cert : X509_STORE_CTX Cert Crl → Int

/-- The engine's resources as a call of `verifyChain` changes them: the number of
validation contexts and of trust stores that were created and not yet freed,
and the contexts `X509_verify_cert` was run on, oldest first. -/
structure EngineState (Cert Crl : Type) where
  liveCtx : Nat
  liveStore : Nat
  validated : List (X509_STORE_CTX Cert Crl)

/-- The validation context as lines 60 to 79 of `chain.cpp` set it up: every
certificate of `chain` is added to the store, the context is initialised with
the store, `chain->items(0)` and `chain`, which leaves the engine's default
flags on it, the CRLs and the two CRL flags are set when `crls->length()` is not
zero, and `X509_V_FLAG_CHECK_SS_SIGNATURE` is set. The target of an empty chain,
for which `items(0)` is decided outside `chain.cpp`, is left open (`none`). -/
def verifyContext {Cert Crl : Type} (eng : Engine Cert Crl) (chain : List Cert)
    (crls : List Crl) : X509_STORE_CTX Cert Crl :=
  let st := chain.foldl X509_STORE_add_cert []
  let ctx0 : X509_STORE_CTX Cert Crl :=
    X509_STORE_CTX_init eng.defaultFlags st chain.head? chain
  let ctx1 :=
    if crls.length ≠ 0 then
      X509_STORE_CTX_set_flags
        (X509_STORE_CTX_set_flags (X509_STORE_CTX_set0_crls ctx0 crls) X509_V_FLAG_CRL_CHECK)
        X509_V_FLAG_CRL_CHECK_ALL
    else
      ctx0
  X509_STORE_CTX_set_flags ctx1 X509_V_FLAG_CHECK_SS_SIGNATURE

/-- The `try` block of `Chain::verifyChain`, from the engine state `s`: its
outcome and the engine state it leaves. -/
def verifyChainBody {Cert Crl : Type} (eng : Engine Cert Crl) (chain : List Cert)
    (crls : List Crl) (s : EngineState Cert Crl) :
    Except Exception Bool × EngineState Cert Crl :=
  if eng.X509_STORE_CTX_new = false then
    (Except.error (THROW_OPENSSL_EXCEPTION 0 "Revocation" none "Error create new store ctx"), s)
  else
    let s1 : EngineState Cert Crl := ⟨s.liveCtx + 1, s.liveStore, s.validated⟩
    if eng.X509_STORE_new = false then
      (Except.error (THROW_OPENSSL_EXCEPTION 0 "Revocation" none "Error create new store"), s1)
    else
      let s2 : EngineState Cert Crl := ⟨s1.liveCtx, s1.liveStore + 1, s1.validated⟩
      let ctx : X509_STORE_CTX Cert Crl := verifyContext eng chain crls
      let s3 : EngineState Cert Crl := ⟨s2.liveCtx, s2.liveStore, s2.validated ++ [ctx]⟩
      let res : Bool := if eng.X509_verify_cert ctx ≤ 0 then false else true
      let s4 : EngineState Cert Crl := ⟨s3.liveCtx - 1, s3.liveStore, s3.validated⟩
      let s5 : EngineState Cert Crl := ⟨s4.liveCtx, s4.liveStore - 1, s4.validated⟩
      (Except.ok res, s5)

/-- `Chain::verifyChain(chain, crls)` from the engine state `s`. -/
def verifyChain {Cert Crl : Type} (eng : Engine Cert Crl) (chain : List Cert)
    (crls : List Crl) (s : EngineState Cert Crl) :
    Except Exception Bool × EngineState Cert Crl :=
  (catchRethrow "Error verify chain (provider store)" (verifyChainBody eng chain crls s).1,
    (verifyChainBody eng chain crls s).2)

/-- An engine that creates both objects, leaves `X509_V_FLAG_TRUSTED_FIRST` on
a context it initialises, as OpenSSL 1.1.0 and later do, and accepts a path
exactly when no CRL collection is attached to the context. -/
def crlRejectingEngine : Engine Nat Nat :=
  ⟨true, true, X509_V_FLAG_TRUSTED_FIRST, fun ctx => if ctx.crls.isSome then 0 else 1⟩

/-- An engine that creates the validation context and then fails to create the
trust store. -/
def storeFailingEngine : Engine Nat Nat :=
  ⟨true, false, X509_V_FLAG_TRUSTED_FIRST, fun _ => 1⟩

/-- An engine that fails to create the validation context. -/
def ctxFailingEngine : Engine Nat Nat :=
  ⟨false, true, X509_V_FLAG_TRUSTED_FIRST, fun _ => 1⟩

/-- An engine state without live resources. -/
def idleEngine : EngineState Nat Nat :=
  ⟨0, 0, []⟩

/-- The `EmptyCertificate` errors: the exceptions the `try` block of
`checkIssued` throws for an empty issuer or an empty subject certificate. -/
def EmptyCertificate (e : Exception) : Prop :=
  e = Exception.root 0 "Chain" "Empty issuer cert" ∨
    e = Exception.root 0 "Chain" "Empty sub cert"

/-! ## The issuance predicate -/

theorem catchRethrow_ok_iff {α : Type} (msg : String) (r : Except Exception α) (v : α) :
    catchRethrow msg r = Except.ok v ↔ r = Except.ok v := by
  cases r <;> simp [catchRethrow]

theorem checkIssued_nonempty {Cert : Type} (env : Env Cert) (issuer cert : Cert)
    (hi : env.isEmpty issuer = false) (hc : env.isEmpty cert = false) :
    checkIssued env issuer cert =
      Except.ok (decide (env.X509_check_issued issuer cert = X509_V_OK)) := by
  unfold checkIssued checkIssuedBody
  by_cases h : env.X509_check_issued issuer cert = X509_V_OK <;>
    simp [hi, hc, h, catchRethrow]

theorem checkIssued_empty_issuer {Cert : Type} (env : Env Cert) (issuer cert : Cert)
    (hi : env.isEmpty issuer = true) :
    checkIssued env issuer cert =
      Except.error (Exception.caused 0 "Chain" "checkIssued"
        (Exception.root 0 "Chain" "Empty issuer cert")) := by
  simp [checkIssued, checkIssuedBody, hi, catchRethrow, THROW_EXCEPTION]

theorem checkIssued_empty_cert {Cert : Type} (env : Env Cert) (issuer cert : Cert)
    (hi : env.isEmpty issuer = false) (hc : env.isEmpty cert = true) :
    checkIssued env issuer cert =
      Except.error (Exception.caused 0 "Chain" "checkIssued"
        (Exception.root 0 "Chain" "Empty sub cert")) := by
  simp [checkIssued, checkIssuedBody, hi, hc, catchRethrow, THROW_EXCEPTION]

theorem checkIssued_ok_nonempty {Cert : Type} (env : Env Cert) (issuer cert : Cert) (b : Bool)
    (h : checkIssued env issuer cert = Except.ok b) :
    env.isEmpty issuer = false ∧ env.isEmpty cert = false := by
  cases hi : env.isEmpty issuer
  · cases hc : env.isEmpty cert
    · exact ⟨rfl, rfl⟩
    · rw [checkIssued_empty_cert env issuer cert hi hc] at h
      cases h
  · rw [checkIssued_empty_issuer env issuer cert hi] at h
    cases h

/-! ## The pool lookup -/

theorem getIssued_ok_iff {Cert : Type} (env : Env Cert) (certs : List Cert) (cert : Cert)
    (r : Option Cert) :
    getIssued env certs cert = Except.ok r ↔ getIssuedScan env cert certs = Except.ok r :=
  catchRethrow_ok_iff _ _ _

theorem getIssuedScan_some {Cert : Type} (env : Env Cert) (cert y : Cert) :
    ∀ certs : List Cert, getIssuedScan env cert certs = Except.ok (some y) →
      ∃ l1 l2, certs = l1 ++ y :: l2 ∧ checkIssued env y cert = Except.ok true ∧
        ∀ p ∈ l1, checkIssued env p cert = Except.ok false := by
  intro certs
  induction certs with
  | nil => intro h; simp [getIssuedScan] at h
  | cons c rest ih =>
    intro h
    unfold getIssuedScan at h
    split at h
    · cases h
    · next hc =>
      cases h
      exact ⟨[], rest, rfl, hc, by simp⟩
    · next hc =>
      obtain ⟨l1, l2, hl, hy, hp⟩ := ih h
      refine ⟨c :: l1, l2, by simp [hl], hy, ?_⟩
      intro p hp1
      rcases List.mem_cons.mp hp1 with rfl | hp2
      · exact hc
      · exact hp p hp2

theorem getIssuedScan_none {Cert : Type} (env : Env Cert) (cert : Cert) :
    ∀ certs : List Cert, getIssuedScan env cert certs = Except.ok none ↔
      ∀ p ∈ certs, checkIssued env p cert = Except.ok false := by
  intro certs
  induction certs with
  | nil => simp [getIssuedScan]
  | cons c rest ih =>
    unfold getIssuedScan
    split
    · next e he => simp [he]
    · next hc => simp [hc]
    · next hc => simp [hc, ih]

theorem getIssuedScan_append {Cert : Type} (env : Env Cert) (cert y : Cert) (l2 : List Cert)
    (hy : checkIssued env y cert = Except.ok true) :
    ∀ l1 : List Cert, (∀ p ∈ l1, checkIssued env p cert = Except.ok false) →
      getIssuedScan env cert (l1 ++ y :: l2) = Except.ok (some y) := by
  intro l1
  induction l1 with
  | nil => intro _; simp [getIssuedScan, hy]
  | cons c rest ih =>
    intro h
    have hc : checkIssued env c cert = Except.ok false := h c (List.mem_cons_self _ _)
    have hr := ih (fun p hp => h p (List.mem_cons_of_mem _ hp))
    simp [getIssuedScan, hc, hr]

theorem getIssued_some {Cert : Type} (env : Env Cert) (certs : List Cert) (cert y : Cert)
    (h : getIssued env certs cert = Except.ok (some y)) :
    ∃ l1 l2, certs = l1 ++ y :: l2 ∧ checkIssued env y cert = Except.ok true ∧
      ∀ p ∈ l1, checkIssued env p cert = Except.ok false :=
  getIssuedScan_some env cert y certs ((getIssued_ok_iff env certs cert _).mp h)

/-! ## The issuer walk -/

theorem buildChainWalk_ok {Cert : Type} (env : Env Cert) (certs : List Cert) :
    ∀ (fuel : Nat) (x : Cert) (chain res : List Cert),
      buildChainWalk env certs fuel x chain = some (Except.ok res) →
      ∃ path, res = chain ++ path ∧ path.length < fuel ∧ IsWalk env certs x path ∧
        ∃ y, getIssued env certs (path.getLastD x) = Except.ok (some y) ∧
          env.compare (path.getLastD x) y = 0 := by
  intro fuel
  induction fuel with
  | zero => intro x chain res h; simp [buildChainWalk] at h
  | succ n ih =>
    intro x chain res h
    unfold buildChainWalk at h
    split at h
    · cases h
    · cases h
    · next issuer hg =>
      split at h
      · next hcmp =>
        cases h
        exact ⟨[], by simp, by simp, trivial, issuer, hg, hcmp⟩
      · next hcmp =>
        obtain ⟨path, hres, hlen, hwalk, y, hy, hfix⟩ := ih issuer (chain ++ [issuer]) res h
        refine ⟨issuer :: path, by simp [hres], by simp [hlen], ⟨hg, hcmp, hwalk⟩, y, ?_, ?_⟩
        · rw [List.getLastD_cons]; exact hy
        · rw [List.getLastD_cons]; exact hfix

theorem buildChainWalk_of_walk {Cert : Type} (env : Env Cert) (certs : List Cert) :
    ∀ (path : List Cert) (x y : Cert) (chain : List Cert) (fuel : Nat),
      IsWalk env certs x path →
      getIssued env certs (path.getLastD x) = Except.ok (some y) →
      env.compare (path.getLastD x) y = 0 → path.length < fuel →
      buildChainWalk env certs fuel x chain = some (Except.ok (chain ++ path)) := by
  intro path
  induction path with
  | nil =>
    intro x y chain fuel _ hy hfix hlen
    obtain ⟨n, rfl⟩ : ∃ n, fuel = n + 1 := ⟨fuel - 1, by simp at hlen; omega⟩
    simp only [List.getLastD_nil] at hy hfix
    simp [buildChainWalk, hy, hfix]
  | cons z rest ih =>
    intro x y chain fuel hwalk hy hfix hlen
    obtain ⟨n, rfl⟩ : ∃ n, fuel = n + 1 := ⟨fuel - 1, by simp at hlen; omega⟩
    obtain ⟨hg, hcmp, hrest⟩ := hwalk
    rw [List.getLastD_cons] at hy hfix
    have hn : rest.length < n := by simp at hlen; omega
    simp [buildChainWalk, hg, hcmp, ih z y (chain ++ [z]) n hrest hy hfix hn]

theorem buildChainWalk_undefined {Cert : Type} (env : Env Cert) (certs : List Cert) :
    ∀ (path : List Cert) (x : Cert) (chain : List Cert) (fuel : Nat),
      IsWalk env certs x path →
      getIssued env certs (path.getLastD x) = Except.ok none → path.length < fuel →
      buildChainWalk env certs fuel x chain =
        some (Except.error (Exception.root 0 "Chain" "Undefined issuer certificate")) := by
  intro path
  induction path with
  | nil =>
    intro x chain fuel _ hy hlen
    obtain ⟨n, rfl⟩ : ∃ n, fuel = n + 1 := ⟨fuel - 1, by simp at hlen; omega⟩
    simp only [List.getLastD_nil] at hy
    simp [buildChainWalk, hy, THROW_EXCEPTION]
  | cons z rest ih =>
    intro x chain fuel hwalk hy hlen
    obtain ⟨n, rfl⟩ : ∃ n, fuel = n + 1 := ⟨fuel - 1, by simp at hlen; omega⟩
    obtain ⟨hg, hcmp, hrest⟩ := hwalk
    rw [List.getLastD_cons] at hy
    have hn : rest.length < n := by simp at hlen; omega
    simp [buildChainWalk, hg, hcmp, ih z (chain ++ [z]) n hrest hy hn]

theorem buildChain_ok {Cert : Type} (env : Env Cert) (fuel : Nat) (leaf : Cert)
    (pool chain : List Cert) (h : buildChain env fuel leaf pool = some (Except.ok chain)) :
    (env.isSelfSigned leaf = true ∧ chain = [leaf]) ∨
    (env.isSelfSigned leaf = false ∧
      ∃ path, chain = leaf :: path ∧ path.length < fuel ∧ IsWalk env pool leaf path ∧
        ∃ y, getIssued env pool (path.getLastD leaf) = Except.ok (some y) ∧
          env.compare (path.getLastD leaf) y = 0) := by
  unfold buildChain at h
  split at h
  · next hss =>
    left
    simp only [Option.some.injEq, Except.ok.injEq] at h
    exact ⟨hss, h.symm⟩
  · next hss =>
    right
    refine ⟨by simpa using hss, ?_⟩
    cases hw : buildChainWalk env pool fuel leaf [leaf] with
    | none => simp [hw] at h
    | some r =>
      rw [hw] at h
      simp only [Option.map_some', Option.some.injEq] at h
      have hr : r = Except.ok chain := (catchRethrow_ok_iff _ _ _).mp h
      subst hr
      obtain ⟨path, hres, hrest⟩ := buildChainWalk_ok env pool fuel leaf [leaf] chain hw
      exact ⟨path, by simpa using hres, hrest⟩

theorem IsWalk.chain {Cert : Type} (env : Env Cert) (certs : List Cert) :
    ∀ (path : List Cert) (x : Cert), IsWalk env certs x path →
      List.Chain (fun a b => checkIssued env b a = Except.ok true) x path := by
  intro path
  induction path with
  | nil => intro x _; exact List.Chain.nil
  | cons z rest ih =>
    intro x h
    obtain ⟨hg, _, hrest⟩ := h
    obtain ⟨_, _, _, hz, _⟩ := getIssued_some env certs x z hg
    exact List.Chain.cons hz (ih z hrest)

/-- C1: when `buildChain(leaf, pool)` returns a chain, element 0 of the chain is
`leaf` (so `compare` gives 0 against `leaf` as soon as it does so for `leaf`
against itself), and for every consecutive pair `(C[i], C[i+1])` of the chain
`checkIssued(C[i+1], C[i])` returns true. -/
theorem buildChain_leaf_first_and_linked {Cert : Type} (env : Env Cert) (fuel : Nat)
    (leaf : Cert) (pool chain : List Cert)
    (h : buildChain env fuel leaf pool = some (Except.ok chain)) :
    chain.head? = some leaf ∧
    (env.compare leaf leaf = 0 → ∀ c ∈ chain.head?, env.compare c leaf = 0) ∧
    ∀ (i : Nat) (hi : i + 1 < chain.length),
      checkIssued env chain[i + 1] chain[i] = Except.ok true := by
  have hlinks : List.Chain' (fun a b => checkIssued env b a = Except.ok true) chain ∧
      chain.head? = some leaf := by
    rcases buildChain_ok env fuel leaf pool chain h with ⟨_, hc⟩ | ⟨_, path, hc, _, hwalk, _⟩
    · subst hc; simp
    · subst hc; exact ⟨IsWalk.chain env pool path leaf hwalk, rfl⟩
  refine ⟨hlinks.2, ?_, ?_⟩
  · intro hrefl c hc
    rw [hlinks.2] at hc
    cases hc
    exact hrefl
  · intro i hi
    have := List.chain'_iff_get.mp hlinks.1 i (by omega)
    simpa using this

/-- C1, witness: the chain built for the leaf `1` over the pool `[2, 3]`. -/
theorem buildChain_leaf_first_and_linked_witness :
    buildChain pki3 5 1 [2, 3] = some (Except.ok [1, 2, 3]) ∧
    ([1, 2, 3].head? = some 1 ∧
      (pki3.compare 1 1 = 0 → ∀ c ∈ [1, 2, 3].head?, pki3.compare c 1 = 0) ∧
      ∀ (i : Nat) (hi : i + 1 < [1, 2, 3].length),
        checkIssued pki3 [1, 2, 3][i + 1] [1, 2, 3][i] = Except.ok true) :=
  ⟨rfl, buildChain_leaf_first_and_linked pki3 5 1 [2, 3] [1, 2, 3] rfl⟩

theorem buildChainWalk_mono {Cert : Type} (env : Env Cert) (certs : List Cert) :
    ∀ (fuel : Nat) (x : Cert) (chain : List Cert) (r : Except Exception (List Cert)),
      buildChainWalk env certs fuel x chain = some r →
      ∀ m, fuel ≤ m → buildChainWalk env certs m x chain = some r := by
  intro fuel
  induction fuel with
  | zero => intro x chain r h; simp [buildChainWalk] at h
  | succ n ih =>
    intro x chain r h m hm
    obtain ⟨k, rfl⟩ : ∃ k, m = k + 1 := ⟨m - 1, by omega⟩
    unfold buildChainWalk at h ⊢
    cases hg : getIssued env certs x with
    | error e => simpa [hg] using h
    | ok o =>
      cases o with
      | none => simpa [hg] using h
      | some issuer =>
        simp only [hg] at h ⊢
        by_cases hcmp : env.compare x issuer = 0
        · simpa [hcmp] using h
        · simp only [hcmp, if_false] at h ⊢
          exact ih issuer _ r h k (by omega)

theorem buildChain_mono {Cert : Type} (env : Env Cert) (fuel m : Nat) (leaf : Cert)
    (pool : List Cert) (r : Except Exception (List Cert))
    (h : buildChain env fuel leaf pool = some r) (hm : fuel ≤ m) :
    buildChain env m leaf pool = some r := by
  unfold buildChain at h ⊢
  split
  · next hss => simpa [hss] using h
  · next hss =>
    simp only [hss] at h
    cases hw : buildChainWalk env pool fuel leaf [leaf] with
    | none => simp [hw] at h
    | some r0 =>
      rw [buildChainWalk_mono env pool fuel leaf [leaf] r0 hw m hm]
      simpa [hw] using h

theorem IsWalk.mem_pool {Cert : Type} (env : Env Cert) (certs : List Cert) :
    ∀ (path : List Cert) (x : Cert), IsWalk env certs x path → ∀ y ∈ path, y ∈ certs := by
  intro path
  induction path with
  | nil => intro x _ y hy; simp at hy
  | cons z rest ih =>
    intro x h y hy
    obtain ⟨hg, _, hrest⟩ := h
    rcases List.mem_cons.mp hy with rfl | hy2
    · obtain ⟨l1, l2, hl, _, _⟩ := getIssued_some env certs x y hg
      simp [hl]
    · exact ih z hrest y hy2

theorem getLastD_mem_or {α : Type} : ∀ (path : List α) (x : α),
    path.getLastD x = x ∨ path.getLastD x ∈ path := by
  intro path
  induction path with
  | nil => intro x; left; rfl
  | cons z rest ih =>
    intro x
    right
    rw [List.getLastD_cons]
    rcases ih z with h | h
    · rw [h]; exact List.mem_cons_self _ _
    · exact List.mem_cons_of_mem _ h

/-- C2: for a self-signed leaf, `buildChain(leaf, pool)` returns exactly the
one-element chain `[leaf]`, and no error, whatever the pool holds. -/
theorem buildChain_selfSigned {Cert : Type} (env : Env Cert) (fuel : Nat) (leaf : Cert)
    (pool : List Cert) (hss : env.isSelfSigned leaf = true) :
    buildChain env fuel leaf pool = some (Except.ok [leaf]) := by
  simp [buildChain, hss]

/-- C2, witness: the self-signed root `3` over a pool that holds an empty
certificate, the root itself and another certificate. -/
theorem buildChain_selfSigned_witness :
    pki3.isSelfSigned 3 = true ∧ buildChain pki3 0 3 [0, 3, 2] = some (Except.ok [3]) :=
  ⟨rfl, buildChain_selfSigned pki3 0 3 [0, 3, 2] rfl⟩

/-- C3: for a non-empty leaf that is not self-signed and a pool of non-empty
certificates, if the issuer walk reaches a tail certificate (the leaf or an
issuer appended earlier) for which no pool certificate satisfies `checkIssued`,
then `buildChain` throws the exception "Undefined issuer certificate" (wrapped
by the handler of `buildChain`) once the loop has run, and returns a chain
for no number of iterations. -/
theorem buildChain_undefined_issuer {Cert : Type} (env : Env Cert) (leaf : Cert)
    (pool path : List Cert) (fuel : Nat)
    (hleaf : env.isEmpty leaf = false) (hss : env.isSelfSigned leaf = false)
    (hpool : ∀ p ∈ pool, env.isEmpty p = false)
    (hwalk : IsWalk env pool leaf path)
    (hnone : ∀ p ∈ pool, checkIssued env p (path.getLastD leaf) ≠ Except.ok true)
    (hfuel : path.length < fuel) :
    buildChain env fuel leaf pool =
      some (Except.error (Exception.caused 0 "Chain" "Error build chain (certificate collection)"
        (Exception.root 0 "Chain" "Undefined issuer certificate"))) ∧
    ∀ (n : Nat) (chain : List Cert), buildChain env n leaf pool ≠ some (Except.ok chain) := by
  have htail : env.isEmpty (path.getLastD leaf) = false := by
    rcases getLastD_mem_or path leaf with h | h
    · rw [h]; exact hleaf
    · exact hpool _ (IsWalk.mem_pool env pool path leaf hwalk _ h)
  have hscan : getIssued env pool (path.getLastD leaf) = Except.ok none := by
    rw [getIssued_ok_iff, getIssuedScan_none]
    intro p hp
    have h1 := checkIssued_nonempty env p (path.getLastD leaf) (hpool p hp) htail
    have h2 := hnone p hp
    rw [h1] at h2 ⊢
    cases hd : decide (env.X509_check_issued p (path.getLastD leaf) = X509_V_OK)
    · rfl
    · rw [hd] at h2; exact absurd rfl h2
  have hres : buildChain env fuel leaf pool =
      some (Except.error (Exception.caused 0 "Chain" "Error build chain (certificate collection)"
        (Exception.root 0 "Chain" "Undefined issuer certificate"))) := by
    simp [buildChain, hss, buildChainWalk_undefined env pool path leaf [leaf] fuel hwalk hscan hfuel,
      catchRethrow, THROW_EXCEPTION]
  refine ⟨hres, ?_⟩
  intro n chain hn
  have h1 := buildChain_mono env n (max n fuel) leaf pool _ hn (le_max_left _ _)
  have h2 := buildChain_mono env fuel (max n fuel) leaf pool _ hres (le_max_right _ _)
  rw [h1] at h2
  cases h2

/-- C3, witness: the leaf `1` over the pool `[2]`; the walk reaches `2`, which
no pool certificate issued. -/
theorem buildChain_undefined_issuer_witness :
    IsWalk pki3 [2] 1 [2] ∧
    (buildChain pki3 2 1 [2] =
      some (Except.error (Exception.caused 0 "Chain" "Error build chain (certificate collection)"
        (Exception.root 0 "Chain" "Undefined issuer certificate"))) ∧
    ∀ (n : Nat) (chain : List Nat), buildChain pki3 n 1 [2] ≠ some (Except.ok chain)) :=
  ⟨⟨rfl, by decide, trivial⟩,
    buildChain_undefined_issuer pki3 1 [2] [2] 2 rfl rfl (by decide) ⟨rfl, by decide, trivial⟩
      (by
        intro p hp
        obtain rfl : p = 2 := by simpa using hp
        rw [show checkIssued pki3 2 ([2].getLastD 1) = Except.ok false from rfl]
        simp)
      (by decide)⟩

/-! ## Termination of the walk -/

theorem crossPki_walk_runs_on (chain2 : List Nat) :
    ∀ (fuel : Nat) (chain1 : List Nat),
      buildChainWalk crossPki [1, 2] fuel 1 chain1 = none ∧
      buildChainWalk crossPki [1, 2] fuel 2 chain2 = none := by
  intro fuel
  induction fuel generalizing chain2 with
  | zero => intro chain1; exact ⟨rfl, rfl⟩
  | succ n ih =>
    intro chain1
    have h1 : getIssued crossPki [1, 2] 1 = Except.ok (some 2) := rfl
    have h2 : getIssued crossPki [1, 2] 2 = Except.ok (some 1) := rfl
    have c1 : crossPki.compare 1 2 ≠ 0 := by decide
    have c2 : crossPki.compare 2 1 ≠ 0 := by decide
    constructor
    · unfold buildChainWalk
      simp only [h1, c1, if_false]
      exact (ih (chain1 ++ [2]) chain1).2
    · unfold buildChainWalk
      simp only [h2, c2, if_false]
      exact (ih chain2 (chain2 ++ [1])).1

/-- C4, at the failing input: for two cross-certified non-empty certificates
`1` and `2` (each the first pool issuer of the other, neither self-signed), the
loop of `buildChain(1, [1, 2])` is still running after any number of
iterations: the call neither returns a chain nor raises an error. -/
theorem buildChain_cross_certified_never_returns :
    (∀ p ∈ [1, 2], crossPki.isEmpty p = false) ∧
    crossPki.isSelfSigned 1 = false ∧ crossPki.compare 1 2 ≠ 0 ∧
    getIssued crossPki [1, 2] 1 = Except.ok (some 2) ∧
    getIssued crossPki [1, 2] 2 = Except.ok (some 1) ∧
    ∀ fuel : Nat, buildChain crossPki fuel 1 [1, 2] = none := by
  refine ⟨by decide, rfl, by decide, rfl, rfl, ?_⟩
  intro fuel
  have h := (crossPki_walk_runs_on [] fuel [1]).1
  have hss : crossPki.isSelfSigned 1 = false := rfl
  simp [buildChain, h, hss]

/-! ## No duplicate entries -/

theorem IsWalk.suffix {Cert : Type} (env : Env Cert) (certs : List Cert) :
    ∀ (l1 : List Cert) (x y : Cert) (l2 : List Cert),
      IsWalk env certs x (l1 ++ y :: l2) → IsWalk env certs y l2 := by
  intro l1
  induction l1 with
  | nil => intro x y l2 h; exact h.2.2
  | cons z rest ih => intro x y l2 h; exact ih z y l2 h.2.2

theorem getLastD_append_cons {α : Type} : ∀ (l1 : List α) (x y : α) (l2 : List α),
    (l1 ++ y :: l2).getLastD x = l2.getLastD y := by
  intro l1
  induction l1 with
  | nil => intro x y l2; rw [List.nil_append, List.getLastD_cons]
  | cons z rest ih => intro x y l2; rw [List.cons_append, List.getLastD_cons]; exact ih z y l2

/-- The number of steps of a walk that ends in a fixed point of the lookup is
the same from two certificates that compare equal. -/
theorem IsWalk.length_eq {Cert : Type} (env : Env Cert) (certs : List Cert)
    (hsymm : ∀ a b, env.compare a b = 0 → env.compare b a = 0)
    (htrans : ∀ a b c, env.compare a b = 0 → env.compare b c = 0 → env.compare a c = 0)
    (hresp : ∀ a b y, env.compare a b = 0 → getIssued env certs a = Except.ok (some y) →
      ∃ z, getIssued env certs b = Except.ok (some z) ∧ env.compare y z = 0) :
    ∀ (p q : List Cert) (x w : Cert), env.compare x w = 0 →
      IsWalk env certs x p → IsWalk env certs w q →
      (∃ y, getIssued env certs (p.getLastD x) = Except.ok (some y) ∧
        env.compare (p.getLastD x) y = 0) →
      (∃ y, getIssued env certs (q.getLastD w) = Except.ok (some y) ∧
        env.compare (q.getLastD w) y = 0) →
      p.length = q.length := by
  intro p
  induction p with
  | nil =>
    intro q x w hxw _ hq hfx _
    cases q with
    | nil => rfl
    | cons z r =>
      exfalso
      obtain ⟨y, hy, hxy⟩ := hfx
      simp only [List.getLastD_nil] at hy hxy
      obtain ⟨hg, hne, _⟩ := hq
      obtain ⟨z2, hz2, hyz⟩ := hresp x w y hxw hy
      rw [hg] at hz2
      cases hz2
      exact hne (htrans _ _ _ (hsymm _ _ hxw) (htrans _ _ _ hxy hyz))
  | cons z r ih =>
    intro q x w hxw hp hq hfx hfw
    obtain ⟨hg, hne, hr⟩ := hp
    cases q with
    | nil =>
      exfalso
      obtain ⟨y, hy, hwy⟩ := hfw
      simp only [List.getLastD_nil] at hy hwy
      obtain ⟨z2, hz2, hyz⟩ := hresp w x y (hsymm _ _ hxw) hy
      rw [hg] at hz2
      cases hz2
      exact hne (htrans _ _ _ hxw (htrans _ _ _ hwy hyz))
    | cons z2 r2 =>
      obtain ⟨hg2, _, hr2⟩ := hq
      obtain ⟨z3, hz3, hzz⟩ := hresp x w z hxw hg
      rw [hg2] at hz3
      cases hz3
      rw [List.getLastD_cons] at hfx hfw
      simp [ih r2 z z2 hzz hr hr2 hfx hfw]

theorem IsWalk.pairwise {Cert : Type} (env : Env Cert) (certs : List Cert)
    (hsymm : ∀ a b, env.compare a b = 0 → env.compare b a = 0)
    (htrans : ∀ a b c, env.compare a b = 0 → env.compare b c = 0 → env.compare a c = 0)
    (hresp : ∀ a b y, env.compare a b = 0 → getIssued env certs a = Except.ok (some y) →
      ∃ z, getIssued env certs b = Except.ok (some z) ∧ env.compare y z = 0) :
    ∀ (p : List Cert) (x : Cert), IsWalk env certs x p →
      (∃ y, getIssued env certs (p.getLastD x) = Except.ok (some y) ∧
        env.compare (p.getLastD x) y = 0) →
      List.Pairwise (fun a b => env.compare a b ≠ 0) (x :: p) := by
  intro p
  induction p with
  | nil => intro x _ _; simp
  | cons z r ih =>
    intro x hp hfx
    rw [List.pairwise_cons]
    refine ⟨?_, ih z hp.2.2 (by rw [List.getLastD_cons] at hfx; exact hfx)⟩
    intro y hy hxy
    obtain ⟨l1, l2, hl⟩ := List.append_of_mem hy
    have hsuf : IsWalk env certs y l2 := IsWalk.suffix env certs l1 x y l2 (hl ▸ hp)
    have hfy : ∃ v, getIssued env certs (l2.getLastD y) = Except.ok (some v) ∧
        env.compare (l2.getLastD y) v = 0 := by
      rw [hl, getLastD_append_cons] at hfx
      exact hfx
    have hlen := IsWalk.length_eq env certs hsymm htrans hresp (z :: r) l2 x y hxy hp hsuf hfx hfy
    rw [hl] at hlen
    simp at hlen
    omega

/-- C5: when `buildChain(leaf, pool)` returns a chain, no two elements at
different positions of the chain compare equal, provided that `compare` is
symmetric and transitive on "gives 0" and that `getIssued` respects it (for
certificates that compare equal it finds issuers that compare equal). -/
theorem buildChain_no_duplicates {Cert : Type} (env : Env Cert) (fuel : Nat) (leaf : Cert)
    (pool chain : List Cert)
    (hsymm : ∀ a b, env.compare a b = 0 → env.compare b a = 0)
    (htrans : ∀ a b c, env.compare a b = 0 → env.compare b c = 0 → env.compare a c = 0)
    (hresp : ∀ a b y, env.compare a b = 0 → getIssued env pool a = Except.ok (some y) →
      ∃ z, getIssued env pool b = Except.ok (some z) ∧ env.compare y z = 0)
    (h : buildChain env fuel leaf pool = some (Except.ok chain)) :
    ∀ (i j : Nat) (hi : i < chain.length) (hj : j < chain.length), i ≠ j →
      env.compare chain[i] chain[j] ≠ 0 := by
  have hpw : List.Pairwise (fun a b => env.compare a b ≠ 0) chain := by
    rcases buildChain_ok env fuel leaf pool chain h with ⟨_, hc⟩ | ⟨_, path, hc, _, hwalk, hfix⟩
    · subst hc; simp
    · subst hc; exact IsWalk.pairwise env pool hsymm htrans hresp path leaf hwalk hfix
  intro i j hi hj hij
  rcases Nat.lt_or_gt_of_ne hij with hlt | hgt
  · exact List.pairwise_iff_getElem.mp hpw i j hi hj hlt
  · intro h0
    exact List.pairwise_iff_getElem.mp hpw j i hj hi hgt (hsymm _ _ h0)

theorem pki3_compare_eq (a b : Nat) : pki3.compare a b = 0 ↔ a = b := by
  show (a : Int) - (b : Int) = 0 ↔ a = b
  omega

/-- C5, witness: the chain `[1, 2, 3]` built for the leaf `1` over `[2, 3]`. -/
theorem buildChain_no_duplicates_witness :
    buildChain pki3 5 1 [2, 3] = some (Except.ok [1, 2, 3]) ∧
    ∀ (i j : Nat) (hi : i < [1, 2, 3].length) (hj : j < [1, 2, 3].length), i ≠ j →
      pki3.compare [1, 2, 3][i] [1, 2, 3][j] ≠ 0 :=
  ⟨rfl, buildChain_no_duplicates pki3 5 1 [2, 3] [1, 2, 3]
    (fun a b h => (pki3_compare_eq b a).mpr ((pki3_compare_eq a b).mp h).symm)
    (fun a b c h1 h2 =>
      (pki3_compare_eq a c).mpr (((pki3_compare_eq a b).mp h1).trans ((pki3_compare_eq b c).mp h2)))
    (fun a b y h hy =>
      ⟨y, ((pki3_compare_eq a b).mp h) ▸ hy, (pki3_compare_eq y y).mpr rfl⟩)
    rfl⟩

/-! ## The end of a returned chain -/

theorem pki3_self_issued_selfSigned (x y : Nat) (hc : pki3.compare x y = 0)
    (hi : checkIssued pki3 y x = Except.ok true) : pki3.isSelfSigned x = true := by
  obtain rfl : x = y := (pki3_compare_eq x y).mp hc
  obtain ⟨hx, _⟩ := checkIssued_ok_nonempty pki3 x x true hi
  rw [checkIssued_nonempty pki3 x x hx hx] at hi
  have h0 : pki3.X509_check_issued x x = X509_V_OK := by simpa using hi
  have h3 : x = 3 := by
    by_contra hne
    have h29 : pki3.X509_check_issued x x = 29 := by
      show (if x = x + 1 ∨ (x = 3 ∧ x = 3) then (0 : Int) else 29) = 29
      have hcond : ¬ (x = x + 1 ∨ (x = 3 ∧ x = 3)) := by omega
      rw [if_neg hcond]
    rw [h29] at h0
    exact absurd h0 (by decide)
  subst h3
  rfl

/-- C6: when `buildChain(leaf, pool)` returns a chain, the final element of the
chain is either self-signed or has no issuer in the pool (`getIssued` returns
not-found), for collaborators in which a certificate is self-signed as soon
as `checkIssued` accepts, as its issuer, a certificate that compares equal to
it. The first case is the one that occurs: for a leaf that is not self-signed
`getIssued(pool, final)` is never not-found. -/
theorem buildChain_final_selfSigned {Cert : Type} (env : Env Cert) (fuel : Nat)
    (leaf : Cert) (pool chain : List Cert)
    (hlaw : ∀ x y, env.compare x y = 0 → checkIssued env y x = Except.ok true →
      env.isSelfSigned x = true)
    (h : buildChain env fuel leaf pool = some (Except.ok chain)) :
    ∃ x, chain.getLast? = some x ∧
      (env.isSelfSigned x = true ∨ getIssued env pool x = Except.ok none) ∧
      (env.isSelfSigned leaf = false → getIssued env pool x ≠ Except.ok none) := by
  rcases buildChain_ok env fuel leaf pool chain h with
    ⟨hss, hc⟩ | ⟨hss, path, hc, _, _, y, hy, hfix⟩
  · subst hc
    exact ⟨leaf, rfl, Or.inl hss, fun hn => by rw [hss] at hn; cases hn⟩
  · subst hc
    obtain ⟨_, _, _, hcheck, _⟩ := getIssued_some env pool _ y hy
    refine ⟨path.getLastD leaf, ?_, Or.inl (hlaw _ y hfix hcheck), ?_⟩
    · rw [List.getLast?_cons, List.getLastD_eq_getLast?]
    · intro _ hn
      rw [hy] at hn
      cases hn

/-- C6, witness: the chain `[1, 2, 3]` of `pki3`, which ends in the self-signed
root `3`. -/
theorem buildChain_final_selfSigned_witness :
    buildChain pki3 5 1 [2, 3] = some (Except.ok [1, 2, 3]) ∧
    pki3.isSelfSigned 3 = true ∧
    ∃ x, [1, 2, 3].getLast? = some x ∧
      (pki3.isSelfSigned x = true ∨ getIssued pki3 [2, 3] x = Except.ok none) ∧
      (pki3.isSelfSigned 1 = false → getIssued pki3 [2, 3] x ≠ Except.ok none) :=
  ⟨rfl, rfl,
    buildChain_final_selfSigned pki3 5 1 [2, 3] [1, 2, 3] pki3_self_issued_selfSigned rfl⟩

/-! ## Linear issuance paths -/

theorem FirstIssuerReached.getIssued_eq {Cert : Type} (env : Env Cert) (pool : List Cert)
    (c d : Cert) (h : FirstIssuerReached env pool c d) :
    getIssued env pool c = Except.ok (some d) := by
  obtain ⟨l1, l2, hl, hd, hbefore⟩ := h
  have hc : env.isEmpty c = false := (checkIssued_ok_nonempty env d c true hd).2
  rw [getIssued_ok_iff, hl]
  apply getIssuedScan_append env c d l2 hd
  intro p hp
  obtain ⟨hp1, h2⟩ := hbefore p hp
  have h1 := checkIssued_nonempty env p c hp1 hc
  rw [h1] at h2 ⊢
  cases hdec : decide (env.X509_check_issued p c = X509_V_OK)
  · rfl
  · rw [hdec] at h2; exact absurd rfl h2

theorem IsReachedIssuancePath.isWalk {Cert : Type} (env : Env Cert) (pool : List Cert) :
    ∀ (path : List Cert) (c : Cert),
      List.Pairwise (fun a b => env.compare a b ≠ 0) (c :: path) →
      IsReachedIssuancePath env pool c path →
      IsWalk env pool c path ∧
        ∃ y, getIssued env pool (path.getLastD c) = Except.ok (some y) ∧
          env.compare (path.getLastD c) y = 0 := by
  intro path
  induction path with
  | nil =>
    intro c _ h
    obtain ⟨y, hfirst, hcmp⟩ := h
    exact ⟨trivial, y, FirstIssuerReached.getIssued_eq env pool c y hfirst, hcmp⟩
  | cons d rest ih =>
    intro c hdist h
    obtain ⟨hfirst, hrest⟩ := h
    rw [List.pairwise_cons] at hdist
    obtain ⟨hw, y, hy, hfix⟩ := ih d hdist.2 hrest
    refine ⟨⟨FirstIssuerReached.getIssued_eq env pool c d hfirst,
      hdist.1 d (List.mem_cons_self _ _), hw⟩, y, ?_, ?_⟩
    · rw [List.getLastD_cons]; exact hy
    · rw [List.getLastD_cons]; exact hfix

/-- C7, counterexample: `1, 2, 3` are pairwise distinct and non-empty, `1` is
not self-signed, and in the pool `[0, 2, 3]` the first certificate satisfying
`checkIssued(., 1)` is `2`, for `2` it is `3`, and for `3` it is `3` itself;
yet `buildChain(1, [0, 2, 3])` never returns `[1, 2, 3]`: the search meets the
empty certificate `0` first and the call throws. -/
theorem buildChain_linear_path_counterexample :
    [1, 2, 3].Nodup ∧ (∀ c ∈ [1, 2, 3], pki3.isEmpty c = false) ∧
    pki3.isSelfSigned 1 = false ∧ IsIssuancePath pki3 [0, 2, 3] 1 [2, 3] ∧
    (∀ fuel : Nat, buildChain pki3 fuel 1 [0, 2, 3] ≠ some (Except.ok [1, 2, 3])) ∧
    buildChain pki3 1 1 [0, 2, 3] =
      some (Except.error (Exception.caused 0 "Chain" "Error build chain (certificate collection)"
        (Exception.caused 0 "Chain" "Error get issued"
          (Exception.caused 0 "Chain" "checkIssued"
            (Exception.root 0 "Chain" "Empty issuer cert"))))) := by
  have hempty : ∀ c : Nat, ∀ p ∈ [0], checkIssued pki3 p c ≠ Except.ok true := by
    intro c p hp
    obtain rfl : p = 0 := by simpa using hp
    rw [checkIssued_empty_issuer pki3 0 c rfl]
    simp
  refine ⟨by decide, by decide, rfl, ?_, ?_, rfl⟩
  · have hrest : ∀ c : Nat, checkIssued pki3 2 c = Except.ok false →
        ∀ p ∈ [0, 2], checkIssued pki3 p c ≠ Except.ok true := by
      intro c hc p hp
      rcases List.mem_cons.mp hp with rfl | hp2
      · exact hempty c _ (by simp)
      · obtain rfl : p = 2 := by simpa using hp2
        rw [hc]
        simp
    exact ⟨⟨[0], [3], rfl, rfl, hempty 1⟩, ⟨[0, 2], [], rfl, rfl, hrest 2 rfl⟩,
      ⟨[0, 2], [], rfl, rfl, hrest 3 rfl⟩⟩
  · intro fuel h
    have h1 := buildChain_mono pki3 fuel (fuel + 1) 1 [0, 2, 3] _ h (by omega)
    have h2 := buildChain_mono pki3 1 (fuel + 1) 1 [0, 2, 3] _ rfl (by omega)
    rw [h1] at h2
    cases h2

/-- C7, amended: for certificates `c0, c1, ..., cn`, pairwise distinct (no two
compare equal) and with `c0` not self-signed, and every pool in which the first
certificate satisfying `checkIssued(., ci)` is `c(i+1)` for each `i < n` and
the first one satisfying `checkIssued(., cn)` is `cn` itself (compares equal to
`cn`), no empty certificate standing before any of these issuers in the pool,
`buildChain(c0, pool)` returns exactly `[c0, c1, ..., cn]`. The `ci` are then
non-empty, and empty certificates further on in the pool do no harm. -/
theorem buildChain_linear_path {Cert : Type} (env : Env Cert) (c0 : Cert)
    (path pool : List Cert) (fuel : Nat)
    (hdist : List.Pairwise (fun a b => env.compare a b ≠ 0) (c0 :: path))
    (hss : env.isSelfSigned c0 = false)
    (hpath : IsReachedIssuancePath env pool c0 path)
    (hfuel : path.length < fuel) :
    buildChain env fuel c0 pool = some (Except.ok (c0 :: path)) := by
  obtain ⟨hw, y, hy, hfix⟩ := IsReachedIssuancePath.isWalk env pool path c0 hdist hpath
  simp [buildChain, hss,
    buildChainWalk_of_walk env pool path c0 y [c0] fuel hw hy hfix hfuel, catchRethrow]

theorem pki3_reached_path : IsReachedIssuancePath pki3 [2, 3, 0] 1 [2, 3] := by
  have hrest : ∀ c : Nat, checkIssued pki3 2 c = Except.ok false →
      ∀ p ∈ [2], pki3.isEmpty p = false ∧ checkIssued pki3 p c ≠ Except.ok true := by
    intro c hc p hp
    obtain rfl : p = 2 := by simpa using hp
    rw [hc]
    exact ⟨rfl, by simp⟩
  exact ⟨⟨[], [3, 0], rfl, rfl, by simp⟩, ⟨[2], [0], rfl, rfl, hrest 2 rfl⟩,
    3, ⟨[2], [0], rfl, rfl, hrest 3 rfl⟩, by decide⟩

/-- C7, witness: the leaf `1` and the pool `[2, 3, 0]` of an intermediate, a
self-signed root and, after them, an empty certificate give `[1, 2, 3]`. -/
theorem buildChain_linear_path_witness :
    IsReachedIssuancePath pki3 [2, 3, 0] 1 [2, 3] ∧
    buildChain pki3 3 1 [2, 3, 0] = some (Except.ok [1, 2, 3]) :=
  ⟨pki3_reached_path,
    buildChain_linear_path pki3 1 [2, 3] [2, 3, 0] 3 (by decide) rfl pki3_reached_path
      (by decide)⟩

/-! ## First-match semantics of the lookup -/

theorem getIssuedScan_index {Cert : Type} (env : Env Cert) (cert y : Cert) :
    ∀ pool : List Cert, getIssuedScan env cert pool = Except.ok (some y) →
      ∃ (i : Nat) (hi : i < pool.length), pool[i] = y ∧
        checkIssued env pool[i] cert = Except.ok true ∧
        ∀ (j : Nat) (hj : j < i), checkIssued env pool[j] cert = Except.ok false := by
  intro pool
  induction pool with
  | nil => intro h; simp [getIssuedScan] at h
  | cons c rest ih =>
    intro h
    unfold getIssuedScan at h
    split at h
    · cases h
    · next hc =>
      cases h
      exact ⟨0, by simp, rfl, hc, fun j hj => absurd hj (Nat.not_lt_zero j)⟩
    · next hc =>
      obtain ⟨k, hk, hy, hck, hbefore⟩ := ih h
      refine ⟨k + 1, by simp; omega, by simpa using hy, by simpa using hck, ?_⟩
      intro j hj
      cases j with
      | zero => simpa using hc
      | succ m => simpa using hbefore m (by omega)

theorem getIssuedScan_of_index {Cert : Type} (env : Env Cert) (cert : Cert) :
    ∀ (i : Nat) (pool : List Cert) (hi : i < pool.length),
      checkIssued env pool[i] cert = Except.ok true →
      (∀ (j : Nat) (hj : j < i), checkIssued env pool[j] cert = Except.ok false) →
      getIssuedScan env cert pool = Except.ok (some pool[i]) := by
  intro i
  induction i with
  | zero =>
    intro pool hi hc _
    cases pool with
    | nil => simp at hi
    | cons c rest =>
      have hc2 : checkIssued env c cert = Except.ok true := by simpa using hc
      simp [getIssuedScan, hc2]
  | succ k ih =>
    intro pool hi hc hbefore
    cases pool with
    | nil => simp at hi
    | cons c rest =>
      have h0 : checkIssued env c cert = Except.ok false := by
        simpa using hbefore 0 (by omega)
      have hk : k < rest.length := by simp at hi; omega
      have hr := ih rest hk (by simpa using hc)
        (fun j hj => by simpa using hbefore (j + 1) (by omega))
      simp [getIssuedScan, h0, hr]

theorem checkIssued_false_iff {Cert : Type} (env : Env Cert) (p cert : Cert)
    (hp : env.isEmpty p = false) (hcert : env.isEmpty cert = false) :
    checkIssued env p cert = Except.ok false ↔ checkIssued env p cert ≠ Except.ok true := by
  rw [checkIssued_nonempty env p cert hp hcert]
  cases decide (env.X509_check_issued p cert = X509_V_OK) <;> simp

theorem getIssued_total {Cert : Type} (env : Env Cert) (cert : Cert)
    (hcert : env.isEmpty cert = false) :
    ∀ pool : List Cert, (∀ p ∈ pool, env.isEmpty p = false) →
      ∃ r, getIssued env pool cert = Except.ok r := by
  intro pool
  induction pool with
  | nil => intro _; exact ⟨none, rfl⟩
  | cons c rest ih =>
    intro hpool
    have hc := checkIssued_nonempty env c cert (hpool c (List.mem_cons_self _ _)) hcert
    obtain ⟨r, hr⟩ := ih (fun q hq => hpool q (List.mem_cons_of_mem _ hq))
    rw [getIssued_ok_iff] at hr
    cases hd : decide (env.X509_check_issued c cert = X509_V_OK)
    · exact ⟨r, by rw [getIssued_ok_iff]; unfold getIssuedScan; rw [hc, hd]; exact hr⟩
    · exact ⟨some c, by rw [getIssued_ok_iff]; unfold getIssuedScan; rw [hc, hd]⟩

/-- C8, counterexample: in the pool `[0, 2]` the element of smallest index that
satisfies `checkIssued(., 1)` is `2` (the empty certificate `0` does not satisfy
it), yet `getIssued([0, 2], 1)` throws instead of returning `2`; and no element
of `[2]` satisfies `checkIssued` against the empty certificate `0`, yet
`getIssued([2], 0)` throws instead of returning not-found. -/
theorem getIssued_first_match_counterexample :
    (checkIssued pki3 2 1 = Except.ok true ∧ checkIssued pki3 0 1 ≠ Except.ok true ∧
      getIssued pki3 [0, 2] 1 =
        Except.error (Exception.caused 0 "Chain" "Error get issued"
          (Exception.caused 0 "Chain" "checkIssued"
            (Exception.root 0 "Chain" "Empty issuer cert"))) ∧
      getIssued pki3 [0, 2] 1 ≠ Except.ok (some 2)) ∧
    ((∀ p ∈ [2], checkIssued pki3 p 0 ≠ Except.ok true) ∧
      getIssued pki3 [2] 0 =
        Except.error (Exception.caused 0 "Chain" "Error get issued"
          (Exception.caused 0 "Chain" "checkIssued"
            (Exception.root 0 "Chain" "Empty sub cert"))) ∧
      getIssued pki3 [2] 0 ≠ Except.ok none) := by
  have h1 : getIssued pki3 [0, 2] 1 =
      Except.error (Exception.caused 0 "Chain" "Error get issued"
        (Exception.caused 0 "Chain" "checkIssued"
          (Exception.root 0 "Chain" "Empty issuer cert"))) := rfl
  have h2 : getIssued pki3 [2] 0 =
      Except.error (Exception.caused 0 "Chain" "Error get issued"
        (Exception.caused 0 "Chain" "checkIssued"
          (Exception.root 0 "Chain" "Empty sub cert"))) := rfl
  refine ⟨⟨rfl, ?_, h1, ?_⟩, ?_, h2, ?_⟩
  · rw [checkIssued_empty_issuer pki3 0 1 rfl]; simp
  · rw [h1]; simp
  · intro p hp
    obtain rfl : p = 2 := by simpa using hp
    rw [checkIssued_empty_cert pki3 2 0 rfl rfl]
    simp
  · rw [h2]; simp

theorem getIssued_some_iff_index {Cert : Type} (env : Env Cert) (pool : List Cert)
    (cert y : Cert) :
    getIssued env pool cert = Except.ok (some y) ↔
      ∃ (i : Nat) (hi : i < pool.length), pool[i] = y ∧
        checkIssued env pool[i] cert = Except.ok true ∧
        ∀ (j : Nat) (hj : j < i), checkIssued env pool[j] cert = Except.ok false := by
  rw [getIssued_ok_iff]
  constructor
  · exact getIssuedScan_index env cert y pool
  · rintro ⟨i, hi, hy, hc, hbefore⟩
    rw [← hy]
    exact getIssuedScan_of_index env cert i pool hi hc hbefore

/-- C8, amended: for every pool and every certificate `cert`,
`getIssued(pool, cert)` returns the pool element of index `i` exactly when
`checkIssued(pool[i], cert)` returns true and `checkIssued` returns false,
throwing nothing, on every element before it; it returns not-found exactly when
`checkIssued` returns false on every pool element. Whenever `getIssued` returns
at all (throws nothing), what it returns is the pool element of smallest index
`i` such that `checkIssued(pool[i], cert)` holds, the earliest of several
issuers, and not-found exactly when no pool element satisfies `checkIssued`
against `cert`. -/
theorem getIssued_first_match {Cert : Type} (env : Env Cert) (pool : List Cert) (cert : Cert) :
    (∀ y, getIssued env pool cert = Except.ok (some y) ↔
      ∃ (i : Nat) (hi : i < pool.length), pool[i] = y ∧
        checkIssued env pool[i] cert = Except.ok true ∧
        ∀ (j : Nat) (hj : j < i), checkIssued env pool[j] cert = Except.ok false) ∧
    (getIssued env pool cert = Except.ok none ↔
      ∀ p ∈ pool, checkIssued env p cert = Except.ok false) ∧
    (∀ r, getIssued env pool cert = Except.ok r →
      (∀ y, r = some y ↔
        ∃ (i : Nat) (hi : i < pool.length), pool[i] = y ∧
          checkIssued env pool[i] cert = Except.ok true ∧
          ∀ (j : Nat) (hj : j < i), checkIssued env pool[j] cert ≠ Except.ok true) ∧
      (r = none ↔ ∀ p ∈ pool, checkIssued env p cert ≠ Except.ok true)) := by
  have hnone : getIssued env pool cert = Except.ok none ↔
      ∀ p ∈ pool, checkIssued env p cert = Except.ok false := by
    rw [getIssued_ok_iff, getIssuedScan_none]
  refine ⟨getIssued_some_iff_index env pool cert, hnone, ?_⟩
  intro r hr
  cases r with
  | none =>
    have hall := hnone.mp hr
    constructor
    · intro y
      constructor
      · intro h; cases h
      · rintro ⟨i, hi, _, hc, _⟩
        rw [hall _ (List.getElem_mem _)] at hc
        cases hc
    · constructor
      · intro _ p hp
        rw [hall p hp]
        simp
      · intro _; rfl
  | some y0 =>
    obtain ⟨i0, hi0, hy0, hc0, hb0⟩ := (getIssued_some_iff_index env pool cert y0).mp hr
    constructor
    · intro y
      constructor
      · intro h
        cases h
        exact ⟨i0, hi0, hy0, hc0, fun j hj => by rw [hb0 j hj]; simp⟩
      · rintro ⟨i, hi, hy, hc, hb⟩
        have hle : ¬ i < i0 := by
          intro hlt
          rw [hb0 i hlt] at hc
          cases hc
        have hge : ¬ i0 < i := fun hlt => hb i0 hlt hc0
        obtain rfl : i = i0 := by omega
        rw [← hy0, ← hy]
    · constructor
      · intro h; cases h
      · intro hall
        exact absurd hc0 (hall _ (List.getElem_mem _))

/-- C8, witness: in `pki3` the issuer `2` of `1` is returned from `[3, 2, 2]` and
from `[2, 0]`, where the empty certificate comes after it, and the empty pool
gives not-found for the empty certificate `0`. -/
theorem getIssued_first_match_witness :
    getIssued pki3 [3, 2, 2] 1 = Except.ok (some 2) ∧
    getIssued pki3 [2, 0] 1 = Except.ok (some 2) ∧
    getIssued pki3 [] 0 = Except.ok none ∧
    (∀ y, getIssued pki3 [2, 0] 1 = Except.ok (some y) ↔
      ∃ (i : Nat) (hi : i < [2, 0].length), [2, 0][i] = y ∧
        checkIssued pki3 [2, 0][i] 1 = Except.ok true ∧
        ∀ (j : Nat) (hj : j < i), checkIssued pki3 [2, 0][j] 1 = Except.ok false) :=
  ⟨rfl, rfl, rfl, (getIssued_first_match pki3 [2, 0] 1).1⟩

/-! ## Results of the issuance predicate -/

/-- C9: `checkIssued(issuer, cert)` throws if and only if `issuer` is empty or
`cert` is empty, and what it throws then is the "Empty issuer cert" (empty
issuer) or "Empty sub cert" (non-empty issuer, empty subject) exception,
wrapped by the handler of `checkIssued`; with both non-empty it returns a
boolean. When either side is empty the outcome is the same for every engine
primitive: `X509_check_issued` is not consulted. -/
theorem checkIssued_throws_iff_empty {Cert : Type} (env : Env Cert) (issuer cert : Cert) :
    ((∃ e, checkIssued env issuer cert = Except.error e) ↔
      (env.isEmpty issuer = true ∨ env.isEmpty cert = true)) ∧
    (env.isEmpty issuer = true →
      checkIssued env issuer cert =
        Except.error (Exception.caused 0 "Chain" "checkIssued"
          (Exception.root 0 "Chain" "Empty issuer cert"))) ∧
    (env.isEmpty issuer = false → env.isEmpty cert = true →
      checkIssued env issuer cert =
        Except.error (Exception.caused 0 "Chain" "checkIssued"
          (Exception.root 0 "Chain" "Empty sub cert"))) ∧
    (env.isEmpty issuer = false → env.isEmpty cert = false →
      ∃ b, checkIssued env issuer cert = Except.ok b) ∧
    (env.isEmpty issuer = true ∨ env.isEmpty cert = true →
      ∀ f : Cert → Cert → Int,
        checkIssued (env.withEngine f) issuer cert = checkIssued env issuer cert) := by
  refine ⟨?_, checkIssued_empty_issuer env issuer cert,
    checkIssued_empty_cert env issuer cert,
    fun hi hc => ⟨_, checkIssued_nonempty env issuer cert hi hc⟩, ?_⟩
  · constructor
    · rintro ⟨e, he⟩
      cases hi : env.isEmpty issuer
      · cases hc : env.isEmpty cert
        · rw [checkIssued_nonempty env issuer cert hi hc] at he
          cases he
        · exact Or.inr rfl
      · exact Or.inl rfl
    · intro h
      cases hi : env.isEmpty issuer
      · have hc : env.isEmpty cert = true := by
          rcases h with h | h
          · rw [hi] at h; cases h
          · exact h
        exact ⟨_, checkIssued_empty_cert env issuer cert hi hc⟩
      · exact ⟨_, checkIssued_empty_issuer env issuer cert hi⟩
  · intro h f
    cases hi : env.isEmpty issuer
    · have hc : env.isEmpty cert = true := by
        rcases h with h | h
        · rw [hi] at h; cases h
        · exact h
      rw [checkIssued_empty_cert env issuer cert hi hc,
        checkIssued_empty_cert (env.withEngine f) issuer cert hi hc]
    · rw [checkIssued_empty_issuer env issuer cert hi,
        checkIssued_empty_issuer (env.withEngine f) issuer cert hi]

/-- C10: for a non-empty issuer and a non-empty `cert`, `checkIssued` returns
true if and only if `X509_check_issued` returns exactly `X509_V_OK`; for every
other code, positive or negative, it returns false. -/
theorem checkIssued_true_iff_ok {Cert : Type} (env : Env Cert) (issuer cert : Cert)
    (hi : env.isEmpty issuer = false) (hc : env.isEmpty cert = false) :
    (checkIssued env issuer cert = Except.ok true ↔
      env.X509_check_issued issuer cert = X509_V_OK) ∧
    (env.X509_check_issued issuer cert ≠ X509_V_OK →
      checkIssued env issuer cert = Except.ok false) := by
  rw [checkIssued_nonempty env issuer cert hi hc]
  by_cases h : env.X509_check_issued issuer cert = X509_V_OK <;> simp [h]

/-- C10, witness: in `pki3` the intermediate `2` issued `1` (code `X509_V_OK`),
and the root `3` did not (code 29). -/
theorem checkIssued_true_iff_ok_witness :
    ((checkIssued pki3 2 1 = Except.ok true ↔ pki3.X509_check_issued 2 1 = X509_V_OK) ∧
      (pki3.X509_check_issued 2 1 ≠ X509_V_OK → checkIssued pki3 2 1 = Except.ok false)) ∧
    ((checkIssued pki3 3 1 = Except.ok true ↔ pki3.X509_check_issued 3 1 = X509_V_OK) ∧
      (pki3.X509_check_issued 3 1 ≠ X509_V_OK → checkIssued pki3 3 1 = Except.ok false)) ∧
    checkIssued pki3 2 1 = Except.ok true ∧ checkIssued pki3 3 1 = Except.ok false :=
  ⟨checkIssued_true_iff_ok pki3 2 1 rfl rfl, checkIssued_true_iff_ok pki3 3 1 rfl rfl, rfl, rfl⟩

/-! ## Chain verification -/

theorem verifyChainBody_created {Cert Crl : Type} (eng : Engine Cert Crl) (chain : List Cert)
    (crls : List Crl) (s : EngineState Cert Crl)
    (hctx : eng.X509_STORE_CTX_new = true) (hst : eng.X509_STORE_new = true) :
    verifyChainBody eng chain crls s =
      (Except.ok (decide (0 < eng.X509_verify_cert (verifyContext eng chain crls))),
        ⟨s.liveCtx, s.liveStore, s.validated ++ [verifyContext eng chain crls]⟩) := by
  unfold verifyChainBody
  by_cases h : eng.X509_verify_cert (verifyContext eng chain crls) ≤ 0
  · have h2 : ¬ 0 < eng.X509_verify_cert (verifyContext eng chain crls) := by omega
    simp [hctx, hst, h, h2]
  · have h2 : 0 < eng.X509_verify_cert (verifyContext eng chain crls) := by omega
    simp [hctx, hst, h, h2]

theorem verifyChainBody_ctx_failure {Cert Crl : Type} (eng : Engine Cert Crl)
    (chain : List Cert) (crls : List Crl) (s : EngineState Cert Crl)
    (hctx : eng.X509_STORE_CTX_new = false) :
    verifyChainBody eng chain crls s =
      (Except.error (Exception.root 0 "Revocation" "Error create new store ctx"), s) := by
  simp [verifyChainBody, hctx, THROW_OPENSSL_EXCEPTION, THROW_EXCEPTION]

theorem verifyChainBody_store_failure {Cert Crl : Type} (eng : Engine Cert Crl)
    (chain : List Cert) (crls : List Crl) (s : EngineState Cert Crl)
    (hctx : eng.X509_STORE_CTX_new = true) (hst : eng.X509_STORE_new = false) :
    verifyChainBody eng chain crls s =
      (Except.error (Exception.root 0 "Revocation" "Error create new store"),
        ⟨s.liveCtx + 1, s.liveStore, s.validated⟩) := by
  simp [verifyChainBody, hctx, hst, THROW_OPENSSL_EXCEPTION, THROW_EXCEPTION]

/-- The paths of `verifyChain` other than the failure to create the trust store
leave as many live contexts and stores as they found. -/
theorem verifyChain_releases {Cert Crl : Type} (eng : Engine Cert Crl) (chain : List Cert)
    (crls : List Crl) (s : EngineState Cert Crl)
    (h : eng.X509_STORE_CTX_new = false ∨ eng.X509_STORE_new = true) :
    (verifyChain eng chain crls s).2.liveCtx = s.liveCtx ∧
    (verifyChain eng chain crls s).2.liveStore = s.liveStore := by
  unfold verifyChain
  cases hctx : eng.X509_STORE_CTX_new
  · rw [verifyChainBody_ctx_failure eng chain crls s hctx]
    exact ⟨rfl, rfl⟩
  · have hst : eng.X509_STORE_new = true := by
      rcases h with h | h
      · rw [hctx] at h; cases h
      · exact h
    rw [verifyChainBody_created eng chain crls s hctx hst]
    exact ⟨rfl, rfl⟩

/-- C11: for a non-empty chain, when the validation context and the trust store
are both created, `verifyChain(chain, crls)` throws nothing, the context it
validates targets element 0 of the chain, and it returns true if and only if
`X509_verify_cert` returns a positive code; a zero or negative code gives
false. -/
theorem verifyChain_true_iff_positive {Cert Crl : Type} (eng : Engine Cert Crl)
    (chain : List Cert) (crls : List Crl) (s : EngineState Cert Crl)
    (hchain : chain ≠ [])
    (hctx : eng.X509_STORE_CTX_new = true) (hst : eng.X509_STORE_new = true) :
    (∃ b, (verifyChain eng chain crls s).1 = Except.ok b) ∧
    (∃ leaf, chain.head? = some leaf ∧
      (verifyContext eng chain crls).cert = some leaf) ∧
    ((verifyChain eng chain crls s).1 = Except.ok true ↔
      0 < eng.X509_verify_cert (verifyContext eng chain crls)) ∧
    (eng.X509_verify_cert (verifyContext eng chain crls) ≤ 0 →
      (verifyChain eng chain crls s).1 = Except.ok false) := by
  have hres : (verifyChain eng chain crls s).1 =
      Except.ok (decide (0 < eng.X509_verify_cert (verifyContext eng chain crls))) := by
    unfold verifyChain
    rw [verifyChainBody_created eng chain crls s hctx hst]
    rfl
  refine ⟨⟨_, hres⟩, ?_, ?_, ?_⟩
  · cases chain with
    | nil => exact absurd rfl hchain
    | cons leaf rest =>
      refine ⟨leaf, rfl, ?_⟩
      unfold verifyContext
      by_cases hc : crls.length ≠ 0 <;>
        simp [hc, X509_STORE_CTX_set_flags, X509_STORE_CTX_set0_crls, X509_STORE_CTX_init]
  · rw [hres]
    simp
  · intro hle
    rw [hres]
    have : ¬ 0 < eng.X509_verify_cert (verifyContext eng chain crls) := by omega
    simp [this]

/-- C11, witness: the engine that rejects a path when CRLs are attached, on the
chain `[1, 2, 3]` without CRLs (accepted) and with one CRL (rejected). -/
theorem verifyChain_true_iff_positive_witness :
    ((verifyChain crlRejectingEngine [1, 2, 3] [] idleEngine).1 = Except.ok true ∧
      (verifyChain crlRejectingEngine [1, 2, 3] [7] idleEngine).1 = Except.ok false) ∧
    ((∃ b, (verifyChain crlRejectingEngine [1, 2, 3] [7] idleEngine).1 = Except.ok b) ∧
    (∃ leaf, [1, 2, 3].head? = some leaf ∧
      (verifyContext crlRejectingEngine [1, 2, 3] [7]).cert = some leaf) ∧
    ((verifyChain crlRejectingEngine [1, 2, 3] [7] idleEngine).1 = Except.ok true ↔
      0 < crlRejectingEngine.X509_verify_cert (verifyContext crlRejectingEngine [1, 2, 3] [7])) ∧
    (crlRejectingEngine.X509_verify_cert (verifyContext crlRejectingEngine [1, 2, 3] [7]) ≤ 0 →
      (verifyChain crlRejectingEngine [1, 2, 3] [7] idleEngine).1 = Except.ok false)) :=
  ⟨⟨rfl, rfl⟩,
    verifyChain_true_iff_positive crlRejectingEngine [1, 2, 3] [7] idleEngine (by decide) rfl rfl⟩

/-- C12, at the failing input: when `X509_STORE_CTX_new` returns a context and
`X509_STORE_new` then returns `NULL`, `verifyChain` throws "Error create new
store" and the context it created is still live afterwards. -/
theorem verifyChain_store_failure_leaks_context :
    storeFailingEngine.X509_STORE_CTX_new = true ∧
    storeFailingEngine.X509_STORE_new = false ∧
    (verifyChain storeFailingEngine [1, 2, 3] [] idleEngine).1 =
      Except.error (Exception.caused 0 "Chain" "Error verify chain (provider store)"
        (Exception.root 0 "Revocation" "Error create new store")) ∧
    (verifyChain storeFailingEngine [1, 2, 3] [] idleEngine).2.liveCtx =
      idleEngine.liveCtx + 1 ∧
    (verifyChain storeFailingEngine [1, 2, 3] [] idleEngine).2.liveStore =
      idleEngine.liveStore :=
  ⟨rfl, rfl, rfl, rfl, rfl⟩

theorem lor_land_self (a b : Nat) : (a ||| b) &&& b = b := by
  apply Nat.eq_of_testBit_eq
  intro i
  rw [Nat.testBit_and, Nat.testBit_or]
  cases a.testBit i <;> cases b.testBit i <;> rfl

theorem verifyContext_flags {Cert Crl : Type} (eng : Engine Cert Crl) (chain : List Cert)
    (crls : List Crl) :
    (crls.length ≠ 0 → (verifyContext eng chain crls).flags =
      eng.defaultFlags ||| X509_V_FLAG_CRL_CHECK ||| X509_V_FLAG_CRL_CHECK_ALL |||
        X509_V_FLAG_CHECK_SS_SIGNATURE) ∧
    (crls.length = 0 → (verifyContext eng chain crls).flags =
      eng.defaultFlags ||| X509_V_FLAG_CHECK_SS_SIGNATURE) := by
  constructor
  · intro hc
    unfold verifyContext
    simp only [hc, if_true, ne_eq, not_false_eq_true]
    rfl
  · intro hc
    unfold verifyContext
    simp only [hc, ne_eq, not_true_eq_false, if_false]
    rfl

theorem verifyContext_crls {Cert Crl : Type} (eng : Engine Cert Crl) (chain : List Cert)
    (crls : List Crl) :
    (crls.length ≠ 0 → (verifyContext eng chain crls).crls = some crls) ∧
    (crls.length = 0 → (verifyContext eng chain crls).crls = none) := by
  constructor
  · intro hc
    unfold verifyContext
    simp only [hc, if_true, ne_eq, not_false_eq_true]
    rfl
  · intro hc
    unfold verifyContext
    simp only [hc, ne_eq, not_true_eq_false, if_false]
    rfl

/-- C13, counterexample: with an engine that leaves `X509_V_FLAG_TRUSTED_FIRST`
on an initialised context, `verifyChain` on the chain `[1, 2, 3]` without CRLs
validates a context on which `CHECK_SS_SIGNATURE` is not the only flag enabled
(the flags are `0xC000`), and with one CRL the flags are `0xC00C`, not the three
named ones alone. -/
theorem verifyChain_options_counterexample :
    (∃ ctx : X509_STORE_CTX Nat Nat,
      (verifyChain crlRejectingEngine [1, 2, 3] [] idleEngine).2.validated = [ctx] ∧
      ctx.crls = none ∧ ctx.flags = 0xC000 ∧
      ctx.flags ≠ X509_V_FLAG_CHECK_SS_SIGNATURE ∧
      ctx.flags &&& X509_V_FLAG_TRUSTED_FIRST = X509_V_FLAG_TRUSTED_FIRST) ∧
    (∃ ctx : X509_STORE_CTX Nat Nat,
      (verifyChain crlRejectingEngine [1, 2, 3] [7] idleEngine).2.validated = [ctx] ∧
      ctx.crls = some [7] ∧ ctx.flags = 0xC00C ∧
      ctx.flags ≠ X509_V_FLAG_CRL_CHECK ||| X509_V_FLAG_CRL_CHECK_ALL |||
        X509_V_FLAG_CHECK_SS_SIGNATURE) :=
  ⟨⟨verifyContext crlRejectingEngine [1, 2, 3] [], rfl, rfl, rfl, by decide, by decide⟩,
    ⟨verifyContext crlRejectingEngine [1, 2, 3] [7], rfl, rfl, rfl, by decide⟩⟩

/-- C13, amended: when the validation context and the trust store are both
created, `verifyChain` runs `X509_verify_cert` once, on a context whose options
are those `X509_STORE_CTX_init` left on it (the engine's default flags) and
those the call adds, which depend on `crls` only. If `crls->length()` is not
zero the CRL collection is attached and the call adds exactly `CRL_CHECK`,
`CRL_CHECK_ALL` and `CHECK_SS_SIGNATURE`, all three then enabled; if it is zero
no CRL collection is attached and `CHECK_SS_SIGNATURE` is the only flag the call
adds. `CHECK_SS_SIGNATURE` is enabled on every call. -/
theorem verifyChain_options {Cert Crl : Type} (eng : Engine Cert Crl) (chain : List Cert)
    (crls : List Crl) (s : EngineState Cert Crl)
    (hctx : eng.X509_STORE_CTX_new = true) (hst : eng.X509_STORE_new = true) :
    ∃ ctx : X509_STORE_CTX Cert Crl,
      (verifyChain eng chain crls s).2.validated = s.validated ++ [ctx] ∧
      (crls.length ≠ 0 → ctx.crls = some crls ∧
        ctx.flags = eng.defaultFlags ||| X509_V_FLAG_CRL_CHECK ||| X509_V_FLAG_CRL_CHECK_ALL |||
          X509_V_FLAG_CHECK_SS_SIGNATURE ∧
        ctx.flags &&& X509_V_FLAG_CRL_CHECK = X509_V_FLAG_CRL_CHECK ∧
        ctx.flags &&& X509_V_FLAG_CRL_CHECK_ALL = X509_V_FLAG_CRL_CHECK_ALL) ∧
      (crls.length = 0 → ctx.crls = none ∧
        ctx.flags = eng.defaultFlags ||| X509_V_FLAG_CHECK_SS_SIGNATURE) ∧
      ctx.flags &&& X509_V_FLAG_CHECK_SS_SIGNATURE = X509_V_FLAG_CHECK_SS_SIGNATURE := by
  refine ⟨verifyContext eng chain crls, ?_, ?_, ?_, ?_⟩
  · unfold verifyChain
    rw [verifyChainBody_created eng chain crls s hctx hst]
  · intro hc
    have hf := (verifyContext_flags eng chain crls).1 hc
    refine ⟨(verifyContext_crls eng chain crls).1 hc, hf, ?_, ?_⟩
    · rw [hf]
      apply Nat.eq_of_testBit_eq
      intro i
      simp only [Nat.testBit_and, Nat.testBit_or]
      cases eng.defaultFlags.testBit i <;> cases X509_V_FLAG_CRL_CHECK.testBit i <;>
        cases X509_V_FLAG_CRL_CHECK_ALL.testBit i <;>
        cases X509_V_FLAG_CHECK_SS_SIGNATURE.testBit i <;> rfl
    · rw [hf]
      apply Nat.eq_of_testBit_eq
      intro i
      simp only [Nat.testBit_and, Nat.testBit_or]
      cases eng.defaultFlags.testBit i <;> cases X509_V_FLAG_CRL_CHECK.testBit i <;>
        cases X509_V_FLAG_CRL_CHECK_ALL.testBit i <;>
        cases X509_V_FLAG_CHECK_SS_SIGNATURE.testBit i <;> rfl
  · intro hc
    exact ⟨(verifyContext_crls eng chain crls).2 hc, (verifyContext_flags eng chain crls).2 hc⟩
  · by_cases hc : crls.length ≠ 0
    · rw [(verifyContext_flags eng chain crls).1 hc]
      exact lor_land_self _ _
    · rw [(verifyContext_flags eng chain crls).2 (by omega)]
      exact lor_land_self _ _

/-- C13, witness: the options on the chain `[1, 2, 3]` with one CRL, for an
engine whose default is `X509_V_FLAG_TRUSTED_FIRST`. -/
theorem verifyChain_options_witness :
    (verifyContext crlRejectingEngine [1, 2, 3] [7]).flags = 0xC00C ∧
    (verifyContext crlRejectingEngine [1, 2, 3] ([] : List Nat)).flags = 0xC000 ∧
    ∃ ctx : X509_STORE_CTX Nat Nat,
      (verifyChain crlRejectingEngine [1, 2, 3] [7] idleEngine).2.validated =
        idleEngine.validated ++ [ctx] ∧
      ([7].length ≠ 0 → ctx.crls = some [7] ∧
        ctx.flags = crlRejectingEngine.defaultFlags ||| X509_V_FLAG_CRL_CHECK |||
          X509_V_FLAG_CRL_CHECK_ALL ||| X509_V_FLAG_CHECK_SS_SIGNATURE ∧
        ctx.flags &&& X509_V_FLAG_CRL_CHECK = X509_V_FLAG_CRL_CHECK ∧
        ctx.flags &&& X509_V_FLAG_CRL_CHECK_ALL = X509_V_FLAG_CRL_CHECK_ALL) ∧
      ([7].length = 0 → ctx.crls = none ∧
        ctx.flags = crlRejectingEngine.defaultFlags ||| X509_V_FLAG_CHECK_SS_SIGNATURE) ∧
      ctx.flags &&& X509_V_FLAG_CHECK_SS_SIGNATURE = X509_V_FLAG_CHECK_SS_SIGNATURE :=
  ⟨rfl, rfl, verifyChain_options crlRejectingEngine [1, 2, 3] [7] idleEngine rfl rfl⟩

/-- C14: if `X509_STORE_CTX_new` fails, or `X509_STORE_new` fails after it,
`verifyChain` throws the engine-failure exception (wrapped by its handler) and
returns no boolean; and whenever `verifyChain` returns false, both objects were
created, `X509_verify_cert` was run on the context of the call, and its code
was zero or negative. -/
theorem verifyChain_engine_failure {Cert Crl : Type} (eng : Engine Cert Crl)
    (chain : List Cert) (crls : List Crl) (s : EngineState Cert Crl) :
    (eng.X509_STORE_CTX_new = false →
      (verifyChain eng chain crls s).1 =
        Except.error (Exception.caused 0 "Chain" "Error verify chain (provider store)"
          (Exception.root 0 "Revocation" "Error create new store ctx"))) ∧
    (eng.X509_STORE_CTX_new = true → eng.X509_STORE_new = false →
      (verifyChain eng chain crls s).1 =
        Except.error (Exception.caused 0 "Chain" "Error verify chain (provider store)"
          (Exception.root 0 "Revocation" "Error create new store"))) ∧
    ((verifyChain eng chain crls s).1 = Except.ok false →
      eng.X509_STORE_CTX_new = true ∧ eng.X509_STORE_new = true ∧
      (verifyChain eng chain crls s).2.validated = s.validated ++ [verifyContext eng chain crls] ∧
      eng.X509_verify_cert (verifyContext eng chain crls) ≤ 0) := by
  refine ⟨?_, ?_, ?_⟩
  · intro hctx
    unfold verifyChain
    rw [verifyChainBody_ctx_failure eng chain crls s hctx]
    rfl
  · intro hctx hst
    unfold verifyChain
    rw [verifyChainBody_store_failure eng chain crls s hctx hst]
    rfl
  · intro h
    unfold verifyChain at h ⊢
    cases hctx : eng.X509_STORE_CTX_new
    · rw [verifyChainBody_ctx_failure eng chain crls s hctx] at h
      cases h
    · cases hst : eng.X509_STORE_new
      · rw [verifyChainBody_store_failure eng chain crls s hctx hst] at h
        cases h
      · rw [verifyChainBody_created eng chain crls s hctx hst] at h ⊢
        refine ⟨rfl, rfl, rfl, ?_⟩
        have h2 : decide (0 < eng.X509_verify_cert (verifyContext eng chain crls)) = false := by
          simpa [catchRethrow] using h
        have h3 := of_decide_eq_false h2
        omega

/-! ## The fixed-point guard -/

/-- C15: the fixed-point guard. For a leaf that is not self-signed, whenever the
issuer `getIssued` finds for the current tail of the walk (the leaf, when
nothing was appended yet) compares equal to the tail, the walk stops and
`buildChain` returns the chain built so far, without that issuer: `[leaf]`
when the tail is the leaf. For collaborators in which a certificate is
self-signed as soon as `checkIssued` accepts, as its issuer, a certificate that
compares equal to it, the first sentence of the claim holds for every pool,
also read on the first pool certificate that satisfies `checkIssued(., leaf)`:
such a certificate never compares equal to a leaf that is not self-signed, so
the guard only fires at an appended issuer. -/
theorem buildChain_fixed_point_guard {Cert : Type} (env : Env Cert) (leaf : Cert)
    (pool : List Cert) (hss : env.isSelfSigned leaf = false) :
    (∀ (path : List Cert) (y : Cert) (fuel : Nat), IsWalk env pool leaf path →
      getIssued env pool (path.getLastD leaf) = Except.ok (some y) →
      env.compare (path.getLastD leaf) y = 0 → path.length < fuel →
      buildChain env fuel leaf pool = some (Except.ok (leaf :: path))) ∧
    (∀ (y : Cert) (fuel : Nat), getIssued env pool leaf = Except.ok (some y) →
      env.compare leaf y = 0 → 0 < fuel →
      buildChain env fuel leaf pool = some (Except.ok [leaf])) ∧
    ((∀ x y, env.compare x y = 0 → checkIssued env y x = Except.ok true →
        env.isSelfSigned x = true) →
      (∀ y, FirstIssuer env pool leaf y → env.compare leaf y ≠ 0) ∧
      ∀ (y : Cert) (fuel : Nat), env.isEmpty leaf = false → FirstIssuer env pool leaf y →
        env.compare leaf y = 0 → 0 < fuel →
        buildChain env fuel leaf pool = some (Except.ok [leaf])) := by
  have hgen : ∀ (path : List Cert) (y : Cert) (fuel : Nat), IsWalk env pool leaf path →
      getIssued env pool (path.getLastD leaf) = Except.ok (some y) →
      env.compare (path.getLastD leaf) y = 0 → path.length < fuel →
      buildChain env fuel leaf pool = some (Except.ok (leaf :: path)) := by
    intro path y fuel hw hy hfix hfuel
    simp [buildChain, hss, buildChainWalk_of_walk env pool path leaf y [leaf] fuel hw hy hfix hfuel,
      catchRethrow]
  refine ⟨hgen, ?_, ?_⟩
  · intro y fuel hy hcmp hfuel
    exact hgen [] y fuel trivial hy hcmp (by simpa using hfuel)
  · intro hlaw
    have hnever : ∀ y, FirstIssuer env pool leaf y → env.compare leaf y ≠ 0 := by
      intro y hfirst hcmp
      obtain ⟨_, _, _, hcheck, _⟩ := hfirst
      have := hlaw leaf y hcmp hcheck
      rw [hss] at this
      cases this
    exact ⟨hnever, fun y _ _ hfirst hcmp _ => absurd hcmp (hnever y hfirst)⟩

/-- C15, witness: in `pki3` the walk from the leaf `1` over the pool `[2, 3]`
reaches the root `3`, whose issuer in the pool is `3` itself; the chain
`[1, 2, 3]` is returned and `3` is not appended a second time. -/
theorem buildChain_fixed_point_guard_witness :
    (IsWalk pki3 [2, 3] 1 [2, 3] ∧
      getIssued pki3 [2, 3] ([2, 3].getLastD 1) = Except.ok (some 3) ∧
      pki3.compare ([2, 3].getLastD 1) 3 = 0) ∧
    buildChain pki3 3 1 [2, 3] = some (Except.ok [1, 2, 3]) ∧
    ∀ y, FirstIssuer pki3 [2, 3] 1 y → pki3.compare 1 y ≠ 0 :=
  ⟨⟨⟨rfl, by decide, rfl, by decide, trivial⟩, rfl, by decide⟩,
    (buildChain_fixed_point_guard pki3 1 [2, 3] rfl).1 [2, 3] 3 3
      ⟨rfl, by decide, rfl, by decide, trivial⟩ rfl (by decide) (by decide),
    ((buildChain_fixed_point_guard pki3 1 [2, 3] rfl).2.2 pki3_self_issued_selfSigned).1⟩

/-! ## Where the walk stops -/

theorem IsWalk.last_iff_fixed {Cert : Type} (env : Env Cert) (certs : List Cert) :
    ∀ (p : List Cert) (x : Cert), IsWalk env certs x p →
      (∃ y, getIssued env certs (p.getLastD x) = Except.ok (some y) ∧
        env.compare (p.getLastD x) y = 0) →
      ∀ (i : Nat) (hi : i < (x :: p).length),
        (i + 1 = (x :: p).length ↔
          ∃ y, getIssued env certs (x :: p)[i] = Except.ok (some y) ∧
            env.compare (x :: p)[i] y = 0) := by
  intro p
  induction p with
  | nil =>
    intro x _ hfix i hi
    have hi0 : i = 0 := by simp at hi; omega
    subst hi0
    simpa using hfix
  | cons z r ih =>
    intro x hw hfix i hi
    obtain ⟨hg, hne, hr⟩ := hw
    rw [List.getLastD_cons] at hfix
    cases i with
    | zero =>
      constructor
      · intro h
        simp at h
      · rintro ⟨y, hy, hxy⟩
        simp only [List.getElem_cons_zero] at hy hxy
        rw [hg] at hy
        cases hy
        exact absurd hxy hne
    | succ k =>
      have hk : k < (z :: r).length := by simp at hi ⊢; omega
      have := ih z hr hfix k hk
      simp only [List.getElem_cons_succ, List.length_cons] at this ⊢
      constructor
      · intro h
        exact this.mp (by omega)
      · intro h
        have := this.mpr h
        omega

/-- C16, counterexample: in `twoRootsPki` the call `buildChain(1, [4, 3])`, for
the leaf `1` that is not self-signed, returns `[1, 3, 4]`: the self-signed `3`
was appended, and `4`, found first in the pool as an issuer of `3`, was
appended after it, so a self-signed certificate sits before the last element. -/
theorem buildChain_selfSigned_not_last_counterexample :
    twoRootsPki.isSelfSigned 1 = false ∧
    buildChain twoRootsPki 3 1 [4, 3] = some (Except.ok [1, 3, 4]) ∧
    twoRootsPki.isSelfSigned ([1, 3, 4][1]) = true ∧
    [1, 3, 4].getLast? = some 4 ∧ twoRootsPki.compare 3 4 ≠ 0 ∧
    checkIssued twoRootsPki 4 3 = Except.ok true ∧
    checkIssued twoRootsPki 3 3 = Except.ok true := by
  refine ⟨rfl, rfl, rfl, rfl, by decide, rfl, rfl⟩

theorem IsWalk.next {Cert : Type} (env : Env Cert) (certs : List Cert) :
    ∀ (p : List Cert) (x : Cert), IsWalk env certs x p →
      ∀ (i : Nat) (hi : i + 1 < (x :: p).length),
        getIssued env certs (x :: p)[i] = Except.ok (some (x :: p)[i + 1]) ∧
          env.compare (x :: p)[i] (x :: p)[i + 1] ≠ 0 := by
  intro p
  induction p with
  | nil => intro x _ i hi; simp at hi
  | cons z r ih =>
    intro x hw i hi
    obtain ⟨hg, hne, hr⟩ := hw
    cases i with
    | zero => exact ⟨by simpa using hg, by simpa using hne⟩
    | succ k =>
      have hk : k + 1 < (z :: r).length := by simp at hi ⊢; omega
      simpa using ih z hr k hk

/-- C16, amended: the walk of `buildChain` stops only at a fixed point of the
lookup, whether or not the certificate it appended is self-signed. In every
chain returned for a leaf that is not self-signed, an element is the last one
if and only if `getIssued` finds for it a certificate that compares equal to
it; and every element that is not the last one, self-signed or not, is followed
by the certificate `getIssued` finds for it, which does not compare equal to
it. -/
theorem buildChain_last_iff_fixed_point {Cert : Type} (env : Env Cert) (fuel : Nat)
    (leaf : Cert) (pool chain : List Cert) (hss : env.isSelfSigned leaf = false)
    (h : buildChain env fuel leaf pool = some (Except.ok chain)) :
    (∀ (i : Nat) (hi : i < chain.length),
      (i + 1 = chain.length ↔
        ∃ y, getIssued env pool chain[i] = Except.ok (some y) ∧
          env.compare chain[i] y = 0)) ∧
    (∀ (i : Nat) (hi : i + 1 < chain.length),
      getIssued env pool chain[i] = Except.ok (some chain[i + 1]) ∧
        env.compare chain[i] chain[i + 1] ≠ 0) ∧
    (∀ (i : Nat) (hi : i < chain.length), env.isSelfSigned chain[i] = true →
      (∃ y, getIssued env pool chain[i] = Except.ok (some y) ∧ env.compare chain[i] y = 0) →
      i + 1 = chain.length) ∧
    (∀ (i : Nat) (hi : i < chain.length) (y : Cert), env.isSelfSigned chain[i] = true →
      getIssued env pool chain[i] = Except.ok (some y) → env.compare chain[i] y ≠ 0 →
      ∃ hi2 : i + 1 < chain.length, chain[i + 1] = y) := by
  rcases buildChain_ok env fuel leaf pool chain h with
    ⟨hss2, _⟩ | ⟨_, path, hc, _, hwalk, hfix⟩
  · rw [hss] at hss2; cases hss2
  · subst hc
    have hlast := IsWalk.last_iff_fixed env pool path leaf hwalk hfix
    have hnext := IsWalk.next env pool path leaf hwalk
    refine ⟨hlast, hnext, fun i hi _ hfp => (hlast i hi).mpr hfp, ?_⟩
    intro i hi y _ hy hne
    have hnot : ¬ (i + 1 = (leaf :: path).length) := by
      intro hl
      obtain ⟨y2, hy2, hc2⟩ := (hlast i hi).mp hl
      rw [hy] at hy2
      cases hy2
      exact hne hc2
    have hi2 : i + 1 < (leaf :: path).length := by omega
    refine ⟨hi2, ?_⟩
    have := (hnext i hi2).1
    rw [hy] at this
    cases this
    rfl

/-- C16, witness of the amended claim: the chain `[1, 3, 4]` of `twoRootsPki`. -/
theorem buildChain_last_iff_fixed_point_witness :
    buildChain twoRootsPki 3 1 [4, 3] = some (Except.ok [1, 3, 4]) ∧
    ((∀ (i : Nat) (hi : i < [1, 3, 4].length),
      (i + 1 = [1, 3, 4].length ↔
        ∃ y, getIssued twoRootsPki [4, 3] [1, 3, 4][i] = Except.ok (some y) ∧
          twoRootsPki.compare [1, 3, 4][i] y = 0)) ∧
    (∀ (i : Nat) (hi : i + 1 < [1, 3, 4].length),
      getIssued twoRootsPki [4, 3] [1, 3, 4][i] = Except.ok (some [1, 3, 4][i + 1]) ∧
        twoRootsPki.compare [1, 3, 4][i] [1, 3, 4][i + 1] ≠ 0) ∧
    (∀ (i : Nat) (hi : i < [1, 3, 4].length), twoRootsPki.isSelfSigned [1, 3, 4][i] = true →
      (∃ y, getIssued twoRootsPki [4, 3] [1, 3, 4][i] = Except.ok (some y) ∧
        twoRootsPki.compare [1, 3, 4][i] y = 0) →
      i + 1 = [1, 3, 4].length) ∧
    (∀ (i : Nat) (hi : i < [1, 3, 4].length) (y : Nat),
      twoRootsPki.isSelfSigned [1, 3, 4][i] = true →
      getIssued twoRootsPki [4, 3] [1, 3, 4][i] = Except.ok (some y) →
      twoRootsPki.compare [1, 3, 4][i] y ≠ 0 →
      ∃ hi2 : i + 1 < [1, 3, 4].length, [1, 3, 4][i + 1] = y)) :=
  ⟨rfl, buildChain_last_iff_fixed_point twoRootsPki 3 1 [4, 3] [1, 3, 4] rfl rfl⟩

/-! ## Cause chains of the errors -/

theorem catchRethrow_error {α : Type} (msg : String) (r : Except Exception α) (e : Exception)
    (h : catchRethrow msg r = Except.error e) :
    ∃ e0, r = Except.error e0 ∧ e = Exception.caused 0 "Chain" msg e0 := by
  cases r with
  | ok v => simp [catchRethrow] at h
  | error e0 =>
    simp only [catchRethrow, THROW_EXCEPTION, Except.error.injEq] at h
    exact ⟨e0, rfl, h.symm⟩

theorem checkIssuedBody_error {Cert : Type} (env : Env Cert) (issuer cert : Cert)
    (e : Exception) (h : checkIssuedBody env issuer cert = Except.error e) :
    EmptyCertificate e := by
  unfold checkIssuedBody at h
  split at h
  · simp only [THROW_EXCEPTION, Except.error.injEq] at h
    exact Or.inl h.symm
  · split at h
    · simp only [THROW_EXCEPTION, Except.error.injEq] at h
      exact Or.inr h.symm
    · split at h <;> cases h

theorem getIssuedScan_error {Cert : Type} (env : Env Cert) (cert : Cert) (e : Exception) :
    ∀ pool : List Cert, getIssuedScan env cert pool = Except.error e →
      ∃ p ∈ pool, checkIssued env p cert = Except.error e := by
  intro pool
  induction pool with
  | nil => intro h; simp [getIssuedScan] at h
  | cons c rest ih =>
    intro h
    unfold getIssuedScan at h
    split at h
    · next e1 hc =>
      cases h
      exact ⟨c, List.mem_cons_self _ _, hc⟩
    · cases h
    · obtain ⟨p, hp, hpe⟩ := ih h
      exact ⟨p, List.mem_cons_of_mem _ hp, hpe⟩

/-- An error of `getIssued` is the original exception of the `try` block of
`checkIssued` for some pool certificate, wrapped by the handlers of
`checkIssued` and `getIssued`. -/
theorem getIssued_error {Cert : Type} (env : Env Cert) (pool : List Cert) (cert : Cert)
    (e : Exception) (h : getIssued env pool cert = Except.error e) :
    ∃ p ∈ pool, ∃ e0, checkIssuedBody env p cert = Except.error e0 ∧ EmptyCertificate e0 ∧
      e = Exception.caused 0 "Chain" "Error get issued"
        (Exception.caused 0 "Chain" "checkIssued" e0) := by
  obtain ⟨e1, hscan, he⟩ := catchRethrow_error _ _ _ h
  obtain ⟨p, hp, hpe⟩ := getIssuedScan_error env cert e1 pool hscan
  obtain ⟨e0, hbody, he1⟩ := catchRethrow_error _ _ _ hpe
  exact ⟨p, hp, e0, hbody, checkIssuedBody_error env p cert e0 hbody, by rw [he, he1]⟩

theorem buildChainWalk_error {Cert : Type} (env : Env Cert) (pool : List Cert) (e : Exception) :
    ∀ (fuel : Nat) (x : Cert) (chain : List Cert),
      buildChainWalk env pool fuel x chain = some (Except.error e) →
      (∃ tail, getIssued env pool tail = Except.ok none ∧
        e = Exception.root 0 "Chain" "Undefined issuer certificate") ∨
      (∃ tail, getIssued env pool tail = Except.error e) := by
  intro fuel
  induction fuel with
  | zero => intro x chain h; simp [buildChainWalk] at h
  | succ n ih =>
    intro x chain h
    unfold buildChainWalk at h
    cases hg : getIssued env pool x with
    | error e1 =>
      simp only [hg, Option.some.injEq, Except.error.injEq] at h
      exact Or.inr ⟨x, by rw [hg, h]⟩
    | ok o =>
      cases o with
      | none =>
        simp only [hg, THROW_EXCEPTION, Option.some.injEq, Except.error.injEq] at h
        exact Or.inl ⟨x, hg, h.symm⟩
      | some issuer =>
        simp only [hg] at h
        by_cases hcmp : env.compare x issuer = 0
        · simp [hcmp] at h
        · simp only [hcmp, if_false] at h
          exact ih issuer _ h

theorem buildChainWalk_error_of_walk {Cert : Type} (env : Env Cert) (certs : List Cert)
    (e : Exception) :
    ∀ (path : List Cert) (x : Cert) (chain : List Cert) (fuel : Nat),
      IsWalk env certs x path →
      getIssued env certs (path.getLastD x) = Except.error e → path.length < fuel →
      buildChainWalk env certs fuel x chain = some (Except.error e) := by
  intro path
  induction path with
  | nil =>
    intro x chain fuel _ hy hlen
    obtain ⟨n, rfl⟩ : ∃ n, fuel = n + 1 := ⟨fuel - 1, by simp at hlen; omega⟩
    simp only [List.getLastD_nil] at hy
    simp [buildChainWalk, hy]
  | cons z rest ih =>
    intro x chain fuel hwalk hy hlen
    obtain ⟨n, rfl⟩ : ∃ n, fuel = n + 1 := ⟨fuel - 1, by simp at hlen; omega⟩
    obtain ⟨hg, hcmp, hrest⟩ := hwalk
    rw [List.getLastD_cons] at hy
    have hn : rest.length < n := by simp at hlen; omega
    simp [buildChainWalk, hg, hcmp, ih z (chain ++ [z]) n hrest hy hn]

/-- C17: errors keep their cause chain through `checkIssued`, `getIssued` and
`buildChain`. When `getIssued` throws for a tail the walk of `buildChain`
reaches, which it only does because the `try` block of `checkIssued` threw an
"Empty issuer cert" or "Empty sub cert" exception `e0` for a pool certificate,
`buildChain` throws a chain of four exceptions: outermost first "Error build
chain (certificate collection)", "Error get issued", "checkIssued" and,
innermost, `e0` itself. Conversely every error that leaves `buildChain` is
either such a chain or the "Undefined issuer certificate" exception, thrown
when `getIssued` found no issuer for a tail, wrapped once. -/
theorem buildChain_error_cause_chain {Cert : Type} (env : Env Cert) (leaf : Cert)
    (pool : List Cert) :
    (∀ (path : List Cert) (fuel : Nat) (e1 : Exception), env.isSelfSigned leaf = false →
      IsWalk env pool leaf path →
      getIssued env pool (path.getLastD leaf) = Except.error e1 → path.length < fuel →
      ∃ p ∈ pool, ∃ e0, checkIssuedBody env p (path.getLastD leaf) = Except.error e0 ∧
        EmptyCertificate e0 ∧
        buildChain env fuel leaf pool =
          some (Except.error (Exception.caused 0 "Chain"
            "Error build chain (certificate collection)"
            (Exception.caused 0 "Chain" "Error get issued"
              (Exception.caused 0 "Chain" "checkIssued" e0))))) ∧
    (∀ (fuel : Nat) (e : Exception), buildChain env fuel leaf pool = some (Except.error e) →
      ((∃ tail, getIssued env pool tail = Except.ok none) ∧
        e = Exception.caused 0 "Chain" "Error build chain (certificate collection)"
          (Exception.root 0 "Chain" "Undefined issuer certificate")) ∨
      (∃ tail, ∃ p ∈ pool, ∃ e0, checkIssuedBody env p tail = Except.error e0 ∧
        EmptyCertificate e0 ∧
        e = Exception.caused 0 "Chain" "Error build chain (certificate collection)"
          (Exception.caused 0 "Chain" "Error get issued"
            (Exception.caused 0 "Chain" "checkIssued" e0)) ∧
        e.rootCause = e0)) := by
  constructor
  · intro path fuel e1 hss hwalk herr hfuel
    obtain ⟨p, hp, e0, hbody, hempty, he1⟩ :=
      getIssued_error env pool (path.getLastD leaf) e1 herr
    refine ⟨p, hp, e0, hbody, hempty, ?_⟩
    have hw := buildChainWalk_error_of_walk env pool e1 path leaf [leaf] fuel hwalk herr hfuel
    simp [buildChain, hss, hw, catchRethrow, THROW_EXCEPTION, he1]
  · intro fuel e h
    unfold buildChain at h
    split at h
    · cases h
    · cases hw : buildChainWalk env pool fuel leaf [leaf] with
      | none => simp [hw] at h
      | some r =>
        rw [hw] at h
        simp only [Option.map_some', Option.some.injEq] at h
        obtain ⟨e1, hr, he⟩ := catchRethrow_error _ _ _ h
        subst hr
        rcases buildChainWalk_error env pool e1 fuel leaf [leaf] hw with
          ⟨tail, hnone, he1⟩ | ⟨tail, herr⟩
        · left
          exact ⟨⟨tail, hnone⟩, by rw [he, he1]⟩
        · right
          obtain ⟨p, hp, e0, hbody, hempty, he1⟩ := getIssued_error env pool tail e1 herr
          refine ⟨tail, p, hp, e0, hbody, hempty, by rw [he, he1], ?_⟩
          rw [he, he1]
          rcases hempty with h0 | h0 <;> rw [h0] <;> rfl

/-- C17, witness: in `pki3`, the empty pool certificate `0` met by
`buildChain(1, [0, 2, 3])`, and the missing issuer of `2` in `buildChain(1, [2])`. -/
theorem buildChain_error_cause_chain_witness :
    (buildChain pki3 1 1 [0, 2, 3] =
      some (Except.error (Exception.caused 0 "Chain" "Error build chain (certificate collection)"
        (Exception.caused 0 "Chain" "Error get issued"
          (Exception.caused 0 "Chain" "checkIssued"
            (Exception.root 0 "Chain" "Empty issuer cert"))))) ∧
    buildChain pki3 2 1 [2] =
      some (Except.error (Exception.caused 0 "Chain" "Error build chain (certificate collection)"
        (Exception.root 0 "Chain" "Undefined issuer certificate")))) ∧
    (∃ p ∈ [0, 2, 3], ∃ e0, checkIssuedBody pki3 p ([].getLastD 1) = Except.error e0 ∧
      EmptyCertificate e0 ∧
      buildChain pki3 1 1 [0, 2, 3] =
        some (Except.error (Exception.caused 0 "Chain"
          "Error build chain (certificate collection)"
          (Exception.caused 0 "Chain" "Error get issued"
            (Exception.caused 0 "Chain" "checkIssued" e0))))) :=
  ⟨⟨rfl, rfl⟩,
    (buildChain_error_cause_chain pki3 1 [0, 2, 3]).1 [] 1 _ rfl trivial rfl (by decide)⟩

/-! ## The last element and the pool -/

/-- C18: when `buildChain(leaf, pool)` returns a chain for a leaf that is not
self-signed, the last element `x` of the chain is a fixed point of the lookup:
`getIssued(pool, x)` finds a pool certificate `y` that compares equal to `x`, and
`checkIssued(y, x)` returns true; and every element of the chain after element 0
is an element of the pool. -/
theorem buildChain_last_fixed_and_in_pool {Cert : Type} (env : Env Cert) (fuel : Nat)
    (leaf : Cert) (pool chain : List Cert) (hss : env.isSelfSigned leaf = false)
    (h : buildChain env fuel leaf pool = some (Except.ok chain)) :
    (∃ x y, chain.getLast? = some x ∧ getIssued env pool x = Except.ok (some y) ∧
      env.compare x y = 0 ∧ y ∈ pool ∧ checkIssued env y x = Except.ok true) ∧
    ∀ (i : Nat) (hi : i < chain.length), 0 < i → chain[i] ∈ pool := by
  rcases buildChain_ok env fuel leaf pool chain h with
    ⟨hss2, _⟩ | ⟨_, path, hc, _, hwalk, y, hy, hfix⟩
  · rw [hss] at hss2; cases hss2
  · subst hc
    obtain ⟨l1, l2, hl, hcheck, _⟩ := getIssued_some env pool _ y hy
    refine ⟨⟨path.getLastD leaf, y, ?_, hy, hfix, by simp [hl], hcheck⟩, ?_⟩
    · rw [List.getLast?_cons, List.getLastD_eq_getLast?]
    · intro i hi hpos
      obtain ⟨k, rfl⟩ : ∃ k, i = k + 1 := ⟨i - 1, by omega⟩
      simp only [List.getElem_cons_succ]
      exact IsWalk.mem_pool env pool path leaf hwalk _ (List.getElem_mem _)

/-- C18, witness: the chain `[1, 2, 3]` built in `pki3` over the pool `[2, 3]`. -/
theorem buildChain_last_fixed_and_in_pool_witness :
    buildChain pki3 3 1 [2, 3] = some (Except.ok [1, 2, 3]) ∧
    ((∃ x y, [1, 2, 3].getLast? = some x ∧ getIssued pki3 [2, 3] x = Except.ok (some y) ∧
      pki3.compare x y = 0 ∧ y ∈ [2, 3] ∧ checkIssued pki3 y x = Except.ok true) ∧
    ∀ (i : Nat) (hi : i < [1, 2, 3].length), 0 < i → [1, 2, 3][i] ∈ [2, 3]) :=
  ⟨rfl, buildChain_last_fixed_and_in_pool pki3 3 1 [2, 3] [1, 2, 3] rfl rfl⟩

/-! ## Empty certificates in the pool -/

theorem getIssuedScan_empty_candidate {Cert : Type} (env : Env Cert) (cert : Cert)
    (hcert : env.isEmpty cert = false) :
    ∀ (k : Nat) (pool : List Cert) (hk : k < pool.length), env.isEmpty pool[k] = true →
      (∀ (j : Nat) (hj : j < k), checkIssued env pool[j] cert ≠ Except.ok true) →
      getIssuedScan env cert pool =
        Except.error (Exception.caused 0 "Chain" "checkIssued"
          (Exception.root 0 "Chain" "Empty issuer cert")) := by
  intro k
  induction k with
  | zero =>
    intro pool hk hempty _
    cases pool with
    | nil => simp at hk
    | cons c rest =>
      have hc : env.isEmpty c = true := by simpa using hempty
      simp [getIssuedScan, checkIssued_empty_issuer env c cert hc]
  | succ n ih =>
    intro pool hk hempty hbefore
    cases pool with
    | nil => simp at hk
    | cons c rest =>
      have hn : n < rest.length := by simp at hk; omega
      cases hc : env.isEmpty c
      · have h0 : checkIssued env c cert ≠ Except.ok true := by
          simpa using hbefore 0 (by omega)
        have h1 : checkIssued env c cert = Except.ok false :=
          (checkIssued_false_iff env c cert hc hcert).mpr h0
        have hr := ih rest hn (by simpa using hempty)
          (fun j hj => by simpa using hbefore (j + 1) (by omega))
        simp [getIssuedScan, h1, hr]
      · simp [getIssuedScan, checkIssued_empty_issuer env c cert hc]

/-- C19: an empty certificate in the pool is not skipped. For a non-empty `cert`
and a pool whose element at index `k` is empty while no element below `k`
satisfies `checkIssued` against `cert`, `getIssued(pool, cert)` throws the "Empty
issuer cert" exception (wrapped by `checkIssued` and `getIssued`), whatever
follows index `k` in the pool; and `buildChain` of such a `cert` that is not
self-signed throws that exception, wrapped once more, as soon as its loop
runs, and returns a chain for no number of iterations. -/
theorem getIssued_empty_candidate_throws {Cert : Type} (env : Env Cert) (pool : List Cert)
    (cert : Cert) (k : Nat) (hk : k < pool.length)
    (hcert : env.isEmpty cert = false) (hempty : env.isEmpty pool[k] = true)
    (hbefore : ∀ (j : Nat) (hj : j < k), checkIssued env pool[j] cert ≠ Except.ok true) :
    getIssued env pool cert =
      Except.error (Exception.caused 0 "Chain" "Error get issued"
        (Exception.caused 0 "Chain" "checkIssued"
          (Exception.root 0 "Chain" "Empty issuer cert"))) ∧
    (env.isSelfSigned cert = false →
      (∀ fuel : Nat, 0 < fuel →
        buildChain env fuel cert pool =
          some (Except.error (Exception.caused 0 "Chain"
            "Error build chain (certificate collection)"
            (Exception.caused 0 "Chain" "Error get issued"
              (Exception.caused 0 "Chain" "checkIssued"
                (Exception.root 0 "Chain" "Empty issuer cert")))))) ∧
      ∀ (n : Nat) (chain : List Cert), buildChain env n cert pool ≠ some (Except.ok chain)) := by
  have hget : getIssued env pool cert =
      Except.error (Exception.caused 0 "Chain" "Error get issued"
        (Exception.caused 0 "Chain" "checkIssued"
          (Exception.root 0 "Chain" "Empty issuer cert"))) := by
    unfold getIssued
    rw [getIssuedScan_empty_candidate env cert hcert k pool hk hempty hbefore]
    rfl
  refine ⟨hget, ?_⟩
  intro hss
  have hbuild : ∀ fuel : Nat, 0 < fuel →
      buildChain env fuel cert pool =
        some (Except.error (Exception.caused 0 "Chain"
          "Error build chain (certificate collection)"
          (Exception.caused 0 "Chain" "Error get issued"
            (Exception.caused 0 "Chain" "checkIssued"
              (Exception.root 0 "Chain" "Empty issuer cert"))))) := by
    intro fuel hfuel
    obtain ⟨n, rfl⟩ : ∃ n, fuel = n + 1 := ⟨fuel - 1, by omega⟩
    simp [buildChain, hss, buildChainWalk, hget, catchRethrow, THROW_EXCEPTION]
  refine ⟨hbuild, ?_⟩
  intro n chain hn
  have h1 := buildChain_mono env n (n + 1) cert pool _ hn (by omega)
  rw [hbuild (n + 1) (by omega)] at h1
  cases h1

/-- C19, witness: in `pki3` the pool `[0, 2, 3]` for the leaf `1`: the empty
certificate `0` comes first and the issuer `2` of the leaf after it. -/
theorem getIssued_empty_candidate_throws_witness :
    checkIssued pki3 2 1 = Except.ok true ∧
    (getIssued pki3 [0, 2, 3] 1 =
      Except.error (Exception.caused 0 "Chain" "Error get issued"
        (Exception.caused 0 "Chain" "checkIssued"
          (Exception.root 0 "Chain" "Empty issuer cert"))) ∧
    (pki3.isSelfSigned 1 = false →
      (∀ fuel : Nat, 0 < fuel →
        buildChain pki3 fuel 1 [0, 2, 3] =
          some (Except.error (Exception.caused 0 "Chain"
            "Error build chain (certificate collection)"
            (Exception.caused 0 "Chain" "Error get issued"
              (Exception.caused 0 "Chain" "checkIssued"
                (Exception.root 0 "Chain" "Empty issuer cert")))))) ∧
      ∀ (n : Nat) (chain : List Nat), buildChain pki3 n 1 [0, 2, 3] ≠ some (Except.ok chain))) :=
  ⟨rfl, getIssued_empty_candidate_throws pki3 [0, 2, 3] 1 0 (by decide) rfl rfl
    (fun j hj => absurd hj (Nat.not_lt_zero j))⟩

end TrustedCrypto
